import Mathlib

/-!
# Onchain action submission coordinator (`src/js/app.js`)

A shallow embedding of the wallet-facing part of the tapper application:
the capability cache, the connection and chain guards, the paymaster
fallback, the confirmation poller and the tap queue.

Conventions of the embedding.

* The external wallet (`provider.request`) is an arbitrary deterministic
  machine `Provider σ`: from its state and a request it yields a settled
  result (resolved value or rejection message), the time the request took,
  and its next state.
* A JavaScript `throw` is `Except.error msg`, where `msg` is the text the
  code reads through `String(e?.message || e || "")`.
* `Date.now()` is the field `now` (milliseconds); `sleep ms` advances it by
  `ms`, a request by the latency the wallet chose.
* A function whose loop may spin without returning yields `Option`;
  `none` means that the fuel was used up.
* `tapQueue` starts at 0, is not stored, and only counts taps: it is a
  natural number (an integer in the interleaved machine).
* `pata` and the stored `tapCounter` are read from `localStorage` and are
  doubles. They are non-negative and integer-valued (`store.getPata` floors
  and clamps; `tapCounter` is only ever written by the drain loop), and
  are held as the natural number they equal. Adding one to them is
  `jsAddOne`, the addition of doubles: exact below `2 ^ 53`, rounded to
  the nearest double from there on.
-/

namespace Tapgorila

/-! ## Constants -/

/-- Source: `BASE_MAINNET_CHAIN_ID`. -/
def BASE_MAINNET_CHAIN_ID : String := "0x2105"

/-- Source: `TAP_CONTRACT`. -/
def TAP_CONTRACT : String := "0x40344818472F5CAF05f7AC50cb6867442b3F55ea"

/-- Source: `USDC_CONTRACT`. -/
def USDC_CONTRACT : String := "0x833589fCD6eDb6E08f4c7C32D4f71b54bdA02913"

/-- Source: `TIP_RECIPIENT`. -/
def TIP_RECIPIENT : String := "0xe8Bda2Ed9d2FC622D900C8a76dc455A3e79B041f"

/-! ## Strings -/

/-- ASCII lower-casing of a character list (`toLowerCase` on the texts the code inspects). -/
def lowerChars (s : List Char) : List Char := s.map Char.toLower

/-- Whether the first list starts with the second. -/
def startsWithChars : List Char → List Char → Bool
  | _, [] => true
  | [], _ :: _ => false
  | c :: cs, d :: ds => c == d && startsWithChars cs ds

/-- Whether the second list occurs as a contiguous block of the first. -/
def includesChars : List Char → List Char → Bool
  | [], needle => startsWithChars [] needle
  | c :: cs, needle => startsWithChars (c :: cs) needle || includesChars cs needle

/-- Source: `msg.toLowerCase().includes(needle)`. -/
def includesLower (msg needle : String) : Bool :=
  includesChars (lowerChars msg.data) needle.data

/-- Hexadecimal digit test, as in the character class `[0-9a-fA-F]`. -/
def isHexDigit (c : Char) : Bool :=
  ('0' ≤ c && c ≤ '9') || ('a' ≤ c && c ≤ 'f') || ('A' ≤ c && c ≤ 'F')

/-- Source: `isHexAddress`, the test `/^0x[0-9a-fA-F]{40}$/`. -/
def isHexAddress (addr : String) : Bool :=
  match addr.data with
  | '0' :: 'x' :: rest => rest.length == 40 && rest.all isHexDigit
  | _ => false

/-- Source: `isReadyToSend`. -/
def isReadyToSend : Bool :=
  if !isHexAddress TAP_CONTRACT then false else true

/-! ## Requests and replies of the wallet endpoint -/

/-- One call of a bundle: `{ to, value, data }` (`dest` is the field `to`). -/
structure Call where
  dest : String
  value : String
  data : String
  deriving DecidableEq, Repr

/-- The attribution capability `dataSuffix: { value, optional }`. -/
structure DataSuffix where
  value : String
  optional : Bool
  deriving DecidableEq, Repr

/-- The `capabilities` object of a request; an absent field is `none`.
`paymasterService` holds the `url` of `{ url: PAYMASTER_SERVICE_URL }`. -/
structure ReqCapabilities where
  dataSuffix : Option DataSuffix
  paymasterService : Option String
  deriving DecidableEq, Repr

/-- The object passed to `wallet_sendCalls`. The tap request carries an
`id`, the USDC request does not. -/
structure CallRequest where
  version : String
  id : Option String
  sender : String
  chainId : String
  atomicRequired : Bool
  calls : List Call
  capabilities : Option ReqCapabilities
  deriving DecidableEq, Repr

/-- The requests the code sends through `provider.request`. -/
inductive Rpc where
  | eth_accounts
  | eth_requestAccounts
  | eth_chainId
  | wallet_switchEthereumChain (chainId : String)
  | wallet_getCapabilities (userAddress : String)
  | wallet_sendCalls (req : CallRequest)
  | wallet_getCallsStatus (bundleId : String)
  deriving DecidableEq, Repr

/-- Capabilities as returned by `wallet_getCapabilities`: for each chain id
key, the truthiness of `.paymasterService?.supported`. -/
abbrev Caps := List (String × Bool)

/-- The value a request resolves with, as far as the code looks into it. -/
inductive Reply where
  | null
  | chainId (s : String)
  | accounts (l : List String)
  | capabilities (c : Caps)
  | bundle (id : Option String)
  | callsStatus (status : Option Int) (receipts : List String)
  deriving DecidableEq, Repr

/-- The message of a thrown error. -/
abbrev Err := String

deriving instance DecidableEq for Except

/-- Source: `accounts?.[0]` followed by the truthiness test `if (addr)`. -/
def Reply.firstAccount : Reply → Option String
  | .accounts (a :: _) => if a = "" then none else some a
  | _ => none

/-- The resolved value of `eth_chainId` as compared by `===` with a string. -/
def Reply.asChainId : Reply → Option String
  | .chainId s => some s
  | _ => none

/-- The resolved value of `wallet_getCapabilities` as stored in
`__walletCaps`: `none` when it is falsy (null, undefined, the empty
string), and otherwise the per-chain table (empty for a truthy value that
has no chain keys). -/
def Reply.asCaps : Reply → Option Caps
  | .null => none
  | .chainId s => if s = "" then none else some []
  | .capabilities c => some c
  | _ => some []

/-- Source: `res?.id` followed by the truthiness test `if (bundleId)`. -/
def Reply.bundleId : Reply → Option String
  | .bundle (some id) => if id = "" then none else some id
  | _ => none

/-- Source: `Number(status?.status)`; `none` is `NaN`. -/
def Reply.statusCode : Reply → Option Int
  | .callsStatus code _ => code
  | _ => none

/-- Source: `status?.receipts || []`, each receipt given by
`String(r?.status || "")`. -/
def Reply.receipts : Reply → List String
  | .callsStatus _ rs => rs
  | _ => []

/-! ## The wallet and the world -/

/-- What one `provider.request` does: the settled result, the time it
took, and the next state of the wallet. -/
structure Answer (σ : Type) where
  result : Except Err Reply
  elapsed : Nat
  next : σ

/-- An external wallet endpoint with state `σ`. -/
structure Provider (σ : Type) where
  request : σ → Rpc → Answer σ

/-- What the page gets from outside the code under study. -/
structure Env (σ : Type) where
  /-- the handle `getProvider` resolves, if any -/
  provider : Option (Provider σ)
  /-- `PAYMASTER_SERVICE_URL` after `loadRuntimeConfig` -/
  PAYMASTER_SERVICE_URL : String
  /-- `builderCodeSuffix`, computed by an imported library -/
  builderCodeSuffix : String
  /-- the calldata `abiEncodeLogAction(bytes32FromAscii(ACTION_TAP), uint256ToHex32(counter))` -/
  tapCalldata : Nat → String
  /-- the text `Math.random().toString(16).slice(2)` of the n-th draw -/
  random : Nat → String

/-- The module-level variables, the stored counters, the clock and the
record of what was sent to the wallet. -/
structure World (σ : Type) where
  wallet : σ
  now : Nat
  /-- requests sent so far, oldest first -/
  log : List Rpc
  draws : Nat
  /-- `__account` -/
  account : Option String
  /-- `__walletCaps`; `none` is a falsy value -/
  walletCaps : Option Caps
  tapQueue : Nat
  tapSending : Bool
  /-- `localStorage` item `tapCounter`, as the number the drain loop reads
  from it: a non-negative integer-valued double -/
  tapCounter : Nat
  /-- the variable `pata`: a non-negative integer-valued double -/
  pata : Nat
  /-- messages shown through `toast`, oldest first -/
  toasts : List String

/-- A resolved or rejected `await`, with the world after it. -/
abbrev Outcome (σ : Type) (α : Type) := Except Err α × World σ

/-- Source: `await provider.request(...)`. -/
def request {σ : Type} (p : Provider σ) (r : Rpc) (w : World σ) : Outcome σ Reply :=
  let a := p.request w.wallet r
  (a.result, { w with wallet := a.next, now := w.now + a.elapsed, log := w.log ++ [r] })

/-- Source: `await sleep(ms)`. -/
def sleep {σ : Type} (ms : Nat) (w : World σ) : World σ :=
  { w with now := w.now + ms }

/-- Source: `getProvider` (the handle is memoised; it fails when neither the
host nor the browser supplies one). -/
def getProvider {σ : Type} (env : Env σ) : Except Err (Provider σ) :=
  match env.provider with
  | some p => .ok p
  | none => .error "No wallet provider found"

/-- Number of requests in a log that satisfy a test. -/
def countRpc (f : Rpc → Bool) (log : List Rpc) : Nat := (log.filter f).length

/-- Test for `wallet_sendCalls`. -/
def Rpc.isSendCalls : Rpc → Bool
  | .wallet_sendCalls _ => true
  | _ => false

/-- Test for `wallet_getCapabilities`. -/
def Rpc.isGetCapabilities : Rpc → Bool
  | .wallet_getCapabilities _ => true
  | _ => false

/-- Test for `wallet_getCallsStatus`. -/
def Rpc.isGetCallsStatus : Rpc → Bool
  | .wallet_getCallsStatus _ => true
  | _ => false

/-- Test for `wallet_switchEthereumChain`. -/
def Rpc.isSwitchChain : Rpc → Bool
  | .wallet_switchEthereumChain _ => true
  | _ => false

/-! ## Confirmation poller -/

/-- The options `{ timeoutMs = 45000, pollMs = 800 }`. -/
structure WaitOptions where
  timeoutMs : Nat := 45000
  pollMs : Nat := 800

/-- Source: the test `code >= 200 && code < 300` (false for `NaN`). -/
def inSuccessRange : Option Int → Bool
  | some c => decide (200 ≤ c) && decide (c < 300)
  | none => false

/-- Source: the test `code >= 400` (false for `NaN`). -/
def inFailureRange : Option Int → Bool
  | some c => decide (400 ≤ c)
  | none => false

/-- Source: `receipts.some(r => String(r?.status || "").toLowerCase() === "0x0")`. -/
def anyFailed (receipts : List String) : Bool :=
  receipts.any (fun r => lowerChars r.data == "0x0".data)

/-- The `try` block of one poll tick, given the settled status request:
`.ok (some status)` is `return status`, `.ok none` falls out of the block
(still pending), `.error` is an exception raised inside the block, either
by the request or by one of the two `throw` statements. -/
def pollTry (settled : Except Err Reply) : Except Err (Option Reply) :=
  match settled with
  | .error e => .error e
  | .ok status =>
    let code := status.statusCode
    if inSuccessRange code then
      if anyFailed status.receipts then .error "Transaction reverted."
      else .ok (some status)
    else if inFailureRange code then .error "Transaction failed (wallet/bundler)."
    else .ok none

/-- Source: the test of the `catch` block of the poller. -/
def isUnsupportedMessage (msg : String) : Bool :=
  includesLower msg "method not found" || includesLower msg "unsupported"
    || includesLower msg "does not exist"

/-- The text of the timeout error of the poller. -/
def pendingTooLong : String :=
  "Transaction pending too long. Please try again in a moment."

/-- Source: the `while (true)` loop of `waitForCallBundleFinal`, `start`
being the time read before the loop. Each unit of fuel is one pass. -/
def waitLoop {σ : Type} (p : Provider σ) (bundleId : String) (opts : WaitOptions)
    (start : Nat) : Nat → World σ → Option (Outcome σ Reply)
  | 0, _ => none
  | fuel + 1, w =>
    if w.now - start > opts.timeoutMs then
      some (.error pendingTooLong, w)
    else
      let (settled, w1) := request p (.wallet_getCallsStatus bundleId) w
      match pollTry settled with
      | .ok (some status) => some (.ok status, w1)
      | .ok none => waitLoop p bundleId opts start fuel (sleep opts.pollMs w1)
      | .error msg =>
        if isUnsupportedMessage msg then
          some (.ok (.callsStatus (some 100) []), sleep 1500 w1)
        else
          waitLoop p bundleId opts start fuel (sleep opts.pollMs w1)

/-- Passes of the loop that are enough when `pollMs` is positive. -/
def waitFuel (opts : WaitOptions) : Nat := opts.timeoutMs / opts.pollMs + 2

/-- Source: `waitForCallBundleFinal`. -/
def waitForCallBundleFinal {σ : Type} (p : Provider σ) (bundleId : String)
    (opts : WaitOptions) (w : World σ) : Option (Outcome σ Reply) :=
  waitLoop p bundleId opts w.now (waitFuel opts) w


/-! ## Capability negotiation and the paymaster fallback -/

/-- Source: `getWalletCapabilities`. The test `if (__walletCaps)` passes for
a cached truthy value only; a failed query stores the empty object. -/
def getWalletCapabilities {σ : Type} (p : Provider σ) (userAddress : String)
    (w : World σ) : Option Caps × World σ :=
  match w.walletCaps with
  | some c => (some c, w)
  | none =>
    let (settled, w1) := request p (.wallet_getCapabilities userAddress) w
    match settled with
    | .ok v => (v.asCaps, { w1 with walletCaps := v.asCaps })
    | .error _ => (some [], { w1 with walletCaps := some [] })

/-- Source: `walletSupportsPaymaster`, that is
`!!caps?.[chainIdHex]?.paymasterService?.supported`. -/
def walletSupportsPaymaster (caps : Option Caps) (chainIdHex : String) : Bool :=
  match caps with
  | none => false
  | some c => (c.lookup chainIdHex).getD false

/-- Source: `maybeAttachPaymaster`; the result is `{ attached, req }`. -/
def maybeAttachPaymaster {σ : Type} (env : Env σ) (p : Provider σ) (sender : String)
    (req : CallRequest) (w : World σ) : (Bool × CallRequest) × World σ :=
  if env.PAYMASTER_SERVICE_URL = "" then ((false, req), w)
  else
    let (caps, w1) := getWalletCapabilities p sender w
    if !walletSupportsPaymaster caps BASE_MAINNET_CHAIN_ID then ((false, req), w1)
    else
      let c : ReqCapabilities :=
        req.capabilities.getD { dataSuffix := none, paymasterService := none }
      let c1 : ReqCapabilities := { c with paymasterService := some env.PAYMASTER_SERVICE_URL }
      ((true, { req with capabilities := some c1 }), w1)

/-- Source: `if (req?.capabilities?.paymasterService) delete req.capabilities.paymasterService`. -/
def deletePaymaster (req : CallRequest) : CallRequest :=
  match req.capabilities with
  | some c =>
    if c.paymasterService.isSome then
      let c1 : ReqCapabilities := { c with paymasterService := none }
      { req with capabilities := some c1 }
    else req
  | none => req

/-- Source: `sendCallsWithPaymasterFallback`. -/
def sendCallsWithPaymasterFallback {σ : Type} (env : Env σ) (p : Provider σ)
    (sender : String) (req : CallRequest) (w : World σ) : Outcome σ Reply :=
  let ((attached, req1), w1) := maybeAttachPaymaster env p sender req w
  let (first, w2) := request p (.wallet_sendCalls req1) w1
  match first with
  | .ok res => (.ok res, w2)
  | .error e =>
    if attached then
      let (second, w3) := request p (.wallet_sendCalls (deletePaymaster req1)) w2
      match second with
      | .ok res => (.ok res, w3)
      | .error _ => (.error e, w3)
    else (.error e, w2)

/-! ## Connection and chain guards, run by a lone caller

These are the runs of `ensureConnected` and `ensureBaseMainnet` in which no
other caller is suspended inside them, so that the in-flight marker is
`null` where it is tested. The interleaved runs are the machines further
down. -/

/-- Source: `ensureConnected`, lone caller. -/
def ensureConnected {σ : Type} (p : Provider σ) (w : World σ) : Outcome σ String :=
  match w.account with
  | some a => (.ok a, w)
  | none =>
    let (existing, w1) := request p .eth_accounts w
    let probed : Option String :=
      match existing with
      | .ok v => v.firstAccount
      | .error _ => none
    match probed with
    | some addr => (.ok addr, { w1 with account := some addr })
    | none =>
      let (accounts, w2) := request p .eth_requestAccounts w1
      match accounts with
      | .error e => (.error e, w2)
      | .ok v =>
        match v.firstAccount with
        | none => (.error "No account selected", w2)
        | some addr => (.ok addr, { w2 with account := some addr })

/-- Source: `ensureBaseMainnet`, lone caller. The value returned is the one
the wallet gave for `eth_chainId`. -/
def ensureBaseMainnet {σ : Type} (p : Provider σ) (w : World σ) : Outcome σ Reply :=
  let (first, w1) := request p .eth_chainId w
  match first with
  | .error e => (.error e, w1)
  | .ok chainId =>
    if chainId.asChainId = some BASE_MAINNET_CHAIN_ID then (.ok chainId, w1)
    else
      let (switched, w2) := request p (.wallet_switchEthereumChain BASE_MAINNET_CHAIN_ID) w1
      match switched with
      | .error _ => (.error "Please switch to Base Mainnet (8453)", w2)
      | .ok _ =>
        let (second, w3) := request p .eth_chainId w2
        match second with
        | .error e => (.error e, w3)
        | .ok next =>
          if next.asChainId ≠ some BASE_MAINNET_CHAIN_ID then
            (.error "Could not switch to Base Mainnet", w3)
          else (.ok next, w3)

/-! ## Counting in doubles -/

/-- The gap between neighbouring doubles around a natural number, found by
doubling from 1 until `2 ^ 53` gaps reach past the number. -/
def doubleSpacingAux : Nat → Nat → Nat → Nat
  | 0, _, s => s
  | fuel + 1, n, s => if n < 2 ^ 53 * s then s else doubleSpacingAux fuel n (2 * s)

/-- The gap between neighbouring doubles around a natural number below
`2 ^ 1024`: 1 below `2 ^ 53`, 2 below `2 ^ 54`, and so on up to `2 ^ 971`. -/
def doubleSpacing (n : Nat) : Nat := doubleSpacingAux 971 n 1

/-- The double nearest to a natural number below `2 ^ 1024`, a tie going to
the neighbour with the even significand. -/
def roundToDouble (m : Nat) : Nat :=
  let s := doubleSpacing m
  let q := m / s
  let r := m % s
  if 2 * r < s then q * s
  else if s < 2 * r then (q + 1) * s
  else if q % 2 = 0 then q * s
  else (q + 1) * s

/-- Source: `x + 1` (and `x += 1`) on a non-negative integer-valued double
`x`: the exact sum rounded to the nearest double. -/
def jsAddOne (x : Nat) : Nat := roundToDouble (x + 1)

/-! ## Tap submission and the tap queue -/

/-- The request object built by `walletSendCallsTap`. -/
def tapRequest {σ : Type} (env : Env σ) (reqId sender : String) (counter : Nat) : CallRequest :=
  { version := "2.0.0"
    id := some reqId
    sender := sender
    chainId := BASE_MAINNET_CHAIN_ID
    atomicRequired := false
    calls := [{ dest := TAP_CONTRACT, value := "0x0", data := env.tapCalldata counter }]
    capabilities := some { dataSuffix := some { value := env.builderCodeSuffix, optional := true }
                           paymasterService := none } }

/-- Source: `walletSendCallsTap`. -/
def walletSendCallsTap {σ : Type} (env : Env σ) (counter : Nat) (w : World σ) :
    Outcome σ Reply :=
  match getProvider env with
  | .error e => (.error e, w)
  | .ok p =>
    let (connected, w1) := ensureConnected p w
    match connected with
    | .error e => (.error e, w1)
    | .ok sender =>
      let (chain, w2) := ensureBaseMainnet p w1
      match chain with
      | .error e => (.error e, w2)
      | .ok _ =>
        let reqId := "tap-" ++ toString w2.now ++ "-" ++ env.random w2.draws
        sendCallsWithPaymasterFallback env p sender (tapRequest env reqId sender counter)
          { w2 with draws := w2.draws + 1 }

/-- How one attempt of the drain loop ended. -/
inductive AttemptOutcome where
  /-- the poller returned a status in the success range -/
  | confirmedSuccess
  /-- the poller returned `{ status: 100 }` after an unsupported-method error -/
  | unsupported
  /-- the wallet returned no bundle id -/
  | noBundleId
  /-- the attempt threw; the message is the one given to the `catch` block -/
  | raised (msg : Err)
  deriving DecidableEq, Repr

/-- Whether the attempt reached the statements after the confirmation wait. -/
def AttemptOutcome.credited : AttemptOutcome → Bool
  | .raised _ => false
  | _ => true

/-- Source: the `catch` block of the drain loop: one toast per failed attempt. -/
def reportError {σ : Type} (e : Err) (w : World σ) : World σ :=
  let msg := if e = "" then "Transaction failed" else e
  let shown :=
    if includesLower msg "user rejected" || includesLower msg "rejected" then "Cancelled"
    else if includesLower msg "insufficient" || includesLower msg "fund" then
      "Not enough Base ETH for gas (check the connected wallet address)"
    else msg
  { w with toasts := w.toasts ++ [shown] }

/-- Source: the statements after the confirmation wait:
`localStorage.setItem("tapCounter", String(nextCounter))`, `pata += 1`,
`store.setPata(pata)`. -/
def commitTap {σ : Type} (nextCounter : Nat) (w : World σ) : World σ :=
  { w with tapCounter := nextCounter, pata := jsAddOne w.pata }

/-- Source: the inner `try`/`catch` of the drain loop. -/
def tapAttempt {σ : Type} (env : Env σ) (w : World σ) : Option (AttemptOutcome × World σ) :=
  let nextCounter := jsAddOne w.tapCounter
  match walletSendCallsTap env nextCounter w with
  | (.error e, w1) => some (.raised e, reportError e w1)
  | (.ok res, w1) =>
    match res.bundleId with
    | some bundleId =>
      match getProvider env with
      | .error e => some (.raised e, reportError e w1)
      | .ok p =>
        match waitForCallBundleFinal p bundleId {} w1 with
        | none => none
        | some (.error e, w2) => some (.raised e, reportError e w2)
        | some (.ok status, w2) =>
          some (if inSuccessRange status.statusCode then .confirmedSuccess else .unsupported,
                commitTap nextCounter w2)
    | none => some (.noBundleId, commitTap nextCounter (sleep 1200 w1))

/-- Source: the end of a pass, after the inner `try`/`catch`:
`await sleep(220)` and `tapQueue -= 1`, the taps that arrived during the
pass having been added. -/
def endPass {σ : Type} (arrived : Nat) (w1 : World σ) : World σ :=
  let w2 := sleep 220 w1
  { w2 with tapQueue := w2.tapQueue + arrived - 1 }

/-- Source: one pass of the `while (tapQueue > 0)` loop. `arrived` is the
number of `enqueueTapTx` calls made while the pass was suspended: each adds
one to `tapQueue` and returns from `processTapQueue` at once, `tapSending`
being true. -/
def tapIteration {σ : Type} (env : Env σ) (arrived : Nat) (w : World σ) :
    Option (AttemptOutcome × World σ) :=
  match tapAttempt env w with
  | none => none
  | some (o, w1) => some (o, endPass arrived w1)

/-- Source: the `while (tapQueue > 0)` loop; `arrivals` lists, pass by pass,
the taps enqueued during the pass. The outcomes are in the order of the passes. -/
def drainLoop {σ : Type} (env : Env σ) :
    Nat → List Nat → World σ → Option (List AttemptOutcome × World σ)
  | 0, _, _ => none
  | fuel + 1, arrivals, w =>
    if 0 < w.tapQueue then
      match tapIteration env (arrivals.headD 0) w with
      | none => none
      | some (o, w1) =>
        match drainLoop env fuel arrivals.tail w1 with
        | none => none
        | some (os, w2) => some (o :: os, w2)
    else some ([], w)

/-- Source: `processTapQueue`. -/
def processTapQueue {σ : Type} (env : Env σ) (arrivals : List Nat) (w : World σ) :
    Option (List AttemptOutcome × World σ) :=
  if w.tapSending then some ([], w)
  else if w.tapQueue ≤ 0 then some ([], w)
  else
    match drainLoop env (w.tapQueue + arrivals.sum + 1) arrivals { w with tapSending := true } with
    | none => none
    | some (os, w1) => some (os, { w1 with tapSending := false })

/-- Source: `enqueueTapTx`. -/
def enqueueTapTx {σ : Type} (env : Env σ) (arrivals : List Nat) (w : World σ) :
    Option (List AttemptOutcome × World σ) :=
  if !isReadyToSend then some ([], { w with toasts := w.toasts ++ ["Tap contract address invalid"] })
  else processTapQueue env arrivals { w with tapQueue := w.tapQueue + 1 }


/-! ## USDC amounts -/

/-- Source: `USDC_DECIMALS`. -/
def USDC_DECIMALS : Nat := 6

/-- The characters `trim` removes: the white space and line terminator
code points of the language. -/
def isWhiteSpace (c : Char) : Bool :=
  let n := c.toNat
  n == 0x09 || n == 0x0A || n == 0x0B || n == 0x0C || n == 0x0D || n == 0x20 || n == 0xA0
    || n == 0x1680 || (decide (0x2000 ≤ n) && decide (n ≤ 0x200A)) || n == 0x2028
    || n == 0x2029 || n == 0x202F || n == 0x205F || n == 0x3000 || n == 0xFEFF

/-- Source: `.trim()`. -/
def trimChars (s : List Char) : List Char :=
  ((s.dropWhile isWhiteSpace).reverse.dropWhile isWhiteSpace).reverse

/-- The class `\d` of a regular expression without the `u` flag. -/
def isDecimalDigit (c : Char) : Bool := '0' ≤ c && c ≤ '9'

/-- Source: the test `/^\d+(\.\d+)?$/.test(s)`. -/
def matchesAmount (s : List Char) : Bool :=
  let whole := s.takeWhile isDecimalDigit
  match s.dropWhile isDecimalDigit with
  | [] => !whole.isEmpty
  | c :: frac => !whole.isEmpty && c == '.' && !frac.isEmpty && frac.all isDecimalDigit

/-- Source: `s.split(".")`. -/
def splitDot : List Char → List (List Char)
  | [] => [[]]
  | c :: cs =>
    if c = '.' then [] :: splitDot cs
    else
      match splitDot cs with
      | [] => [[c]]
      | h :: t => (c :: h) :: t

/-- The number a decimal digit stands for. -/
def digitValue (c : Char) : Nat := c.toNat - 48

/-- Source: `BigInt(text)` on the texts the code gives it, which are
sequences of decimal digits (the empty text gives 0); any other character
is a `SyntaxError` here. -/
def BigInt (text : List Char) : Except Err Nat :=
  if text.all isDecimalDigit then .ok (text.foldl (fun acc c => acc * 10 + digitValue c) 0)
  else .error "SyntaxError: Cannot convert to a BigInt"

/-- Source: `parseUsdcToBaseUnits`, on a string input. -/
def parseUsdcToBaseUnits (input : String) : Except Err Nat :=
  let s := trimChars input.data
  if s.isEmpty then .error "Enter an amount"
  else if !matchesAmount s then .error "Invalid amount"
  else
    let parts := splitDot s
    let whole := parts.headD []
    let frac := parts.tail.headD []
    let fracPadded := (frac ++ List.replicate USDC_DECIMALS '0').take USDC_DECIMALS
    match BigInt whole, BigInt (if fracPadded.isEmpty then ['0'] else fracPadded) with
    | .ok a, .ok b =>
      let units := a * 10 ^ USDC_DECIMALS + b
      if units ≤ 0 then .error "Amount must be > 0" else .ok units
    | .error e, _ => .error e
    | _, .error e => .error e

/-! ### Decimal numerals, as the claim words them -/

/-- A decimal numeral: `digits`, or `digits.digits` when `frac` is present. -/
structure Numeral where
  whole : List Char
  frac : Option (List Char)
  deriving DecidableEq, Repr

/-- Both digit sequences are non-empty and made of decimal digits. -/
def Numeral.wellFormed (n : Numeral) : Bool :=
  !n.whole.isEmpty && n.whole.all isDecimalDigit &&
    match n.frac with
    | none => true
    | some f => !f.isEmpty && f.all isDecimalDigit

/-- The text of the numeral. -/
def Numeral.text (n : Numeral) : List Char :=
  match n.frac with
  | none => n.whole
  | some f => n.whole ++ '.' :: f

/-- The number a sequence of decimal digits denotes, most significant digit first. -/
def decimalValue (s : List Char) : Nat := Nat.ofDigits 10 (s.reverse.map digitValue)

/-- The rational number the numeral denotes. -/
def Numeral.value (n : Numeral) : ℚ :=
  match n.frac with
  | none => (decimalValue n.whole : ℚ)
  | some f => (decimalValue n.whole : ℚ) + (decimalValue f : ℚ) / (10 : ℚ) ^ f.length

/-- The amount the claim gives for a numeral: the floor of a million times its value. -/
def Numeral.baseUnits (n : Numeral) : Nat := Nat.floor (n.value * (10 : ℚ) ^ 6)

/-! ## Concrete wallets and worlds used as inputs -/

/-- The world at page load: nothing sent, nothing cached, empty queue. -/
def World.init {σ : Type} (s : σ) : World σ :=
  { wallet := s, now := 0, log := [], draws := 0, account := none, walletCaps := none,
    tapQueue := 0, tapSending := false, tapCounter := 0, pata := 0, toasts := [] }

/-- A stateless wallet answering at once, by a table from requests to results. -/
def tableWallet (f : Rpc → Except Err Reply) : Provider Unit :=
  { request := fun _ r => { result := f r, elapsed := 0, next := () } }

/-- A wallet whose every status reply is `{ status: 200, receipts: [{ status: "0x0" }] }`. -/
def revertedReceiptWallet : Provider Unit :=
  tableWallet (fun _ => .ok (.callsStatus (some 200) ["0x0"]))

/-- A wallet whose every status reply is `{ status: 400 }`. -/
def failedBundleWallet : Provider Unit :=
  tableWallet (fun _ => .ok (.callsStatus (some 400) []))

/-- The result of a poller run, the number of status queries sent and the final time. -/
def pollSummary {σ : Type} (r : Option (Outcome σ Reply)) : Option (Except Err Reply × Nat × Nat) :=
  r.map (fun o => (o.1, countRpc Rpc.isGetCallsStatus o.2.log, o.2.now))

/-- A page configuration without sponsorship endpoint. -/
def plainEnv (p : Provider Unit) : Env Unit :=
  { provider := some p, PAYMASTER_SERVICE_URL := "", builderCodeSuffix := "0x62635f",
    tapCalldata := fun _ => "0x2d9bc1fb", random := fun _ => "8f3a" }

/-- A page configuration with a sponsorship endpoint. -/
def sponsoredEnv (p : Provider Unit) : Env Unit :=
  { provider := some p, PAYMASTER_SERVICE_URL := "https://paymaster.example/rpc",
    builderCodeSuffix := "0x62635f", tapCalldata := fun _ => "0x2d9bc1fb",
    random := fun _ => "8f3a" }

/-- A wallet that rejects every `wallet_sendCalls` and reports paymaster
support on Base for every capability query. -/
def rejectingWallet : Provider Unit :=
  tableWallet (fun r => match r with
    | .wallet_sendCalls _ => .error "policy rejected"
    | .wallet_getCapabilities _ => .ok (.capabilities [("0x2105", true)])
    | _ => .ok .null)

/-- A tap request as built for account `0xA11ce` and counter 1. -/
def sampleRequest : CallRequest :=
  tapRequest (plainEnv rejectingWallet) "tap-0-8f3a" "0xA11ce" 1

/-- A wallet that resolves `wallet_getCapabilities` with `null` and every
other request with `null` as well. -/
def nullCapsWallet : Provider Unit :=
  tableWallet (fun _ => .ok .null)

/-- A wallet that rejects `wallet_getCapabilities` and resolves every other
request with `null`. -/
def failingCapsWallet : Provider Unit :=
  tableWallet (fun r => match r with
    | .wallet_getCapabilities _ => .error "capabilities unavailable"
    | _ => .ok .null)

/-- The fields of the world that only the tap queue writes:
`tapQueue`, `tapSending`, the stored `tapCounter` and `pata`. -/
def World.counters {σ : Type} (w : World σ) : Nat × Bool × Nat × Nat :=
  (w.tapQueue, w.tapSending, w.tapCounter, w.pata)

/-- A connected wallet on Base that accepts every bundle under the id
`0xb1` and does not implement `wallet_getCallsStatus`. -/
def noStatusWallet : Provider Unit :=
  tableWallet (fun r => match r with
    | .eth_accounts => .ok (.accounts ["0xA11ce"])
    | .eth_requestAccounts => .ok (.accounts ["0xA11ce"])
    | .eth_chainId => .ok (.chainId "0x2105")
    | .wallet_sendCalls _ => .ok (.bundle (some "0xb1"))
    | .wallet_getCallsStatus _ => .error "Method not found"
    | _ => .ok .null)

/-- The world at page load with one tap in the queue. -/
def oneTapQueued : World Unit :=
  { World.init () with tapQueue := 1 }

/-- The outcomes of a drain together with the final `pata`, `tapCounter`,
`tapQueue` and `tapSending`. -/
def drainSummary {σ : Type} (r : Option (List AttemptOutcome × World σ)) :
    Option (List AttemptOutcome × Nat × Nat × Nat × Bool) :=
  r.map (fun x => (x.1, x.2.pata, x.2.tapCounter, x.2.tapQueue, x.2.tapSending))

/-- Number of attempts of a drain that ended in `confirmedSuccess`. -/
def confirmedSuccessCount (os : List AttemptOutcome) : Nat :=
  os.count .confirmedSuccess

/-- Number of attempts of a drain that did not throw. -/
def creditedCount (os : List AttemptOutcome) : Nat :=
  os.countP AttemptOutcome.credited

/-! ## The tap queue, interleaved with taps

`processTapQueue` is suspended at its `await`s; while it is, the page
handles further taps. The machine below has one transition for each thing
that can happen next: a tap calls `enqueueTapTx`, an `await` inside the
running attempt resumes, the attempt settles, or the timer of
`sleep(220)` fires. The state keeps every suspended call of
`processTapQueue`, so that a second drain loop would show. -/

namespace Queue

/-- Where a suspended call of `processTapQueue` stands. -/
inductive LoopPc where
  /-- inside the inner `try`: in `walletSendCallsTap`, `waitForCallBundleFinal` or `sleep(1200)` -/
  | attempting
  /-- in `await sleep(220)` -/
  | settling
  deriving DecidableEq, Repr

/-- The queue variables, the suspended drain loops and two counters of
what has happened: attempts begun (calls of `walletSendCallsTap`) and
attempts settled (returned or thrown). -/
structure QueueState where
  tapQueue : Int
  tapSending : Bool
  loops : List LoopPc
  started : Nat
  settled : Nat
  deriving DecidableEq, Repr

/-- What can happen next. -/
inductive QueueEvent where
  /-- a tap: `enqueueTapTx()` -/
  | enqueue
  /-- an `await` inside the attempt of loop `i` resumes and the attempt suspends again -/
  | attemptResumes (i : Nat)
  /-- the attempt of loop `i` returns (`threw = false`) or throws into the `catch` -/
  | attemptSettles (i : Nat) (threw : Bool)
  /-- the timer of `sleep(220)` of loop `i` fires -/
  | timerFires (i : Nat)
  deriving DecidableEq, Repr

/-- Page load: `tapQueue = 0`, `tapSending = false`, nothing suspended. -/
def idle : QueueState :=
  { tapQueue := 0, tapSending := false, loops := [], started := 0, settled := 0 }

/-- Source: `processTapQueue` from its call to its first `await`: the two
guards, `tapSending = true`, the loop test and the call of
`walletSendCallsTap`; when the loop test fails, the `finally` block. -/
def processTapQueue (s : QueueState) : QueueState :=
  if s.tapSending then s
  else if s.tapQueue ≤ 0 then s
  else
    let s1 := { s with tapSending := true }
    if 0 < s1.tapQueue then
      { s1 with loops := s1.loops ++ [.attempting], started := s1.started + 1 }
    else { s1 with tapSending := false }

/-- Source: `enqueueTapTx`. -/
def enqueueTapTx (s : QueueState) : QueueState :=
  if !isReadyToSend then s
  else processTapQueue { s with tapQueue := s.tapQueue + 1 }

/-- Source: loop `i` from the end of `await sleep(220)` to its next `await`:
`tapQueue -= 1`, the loop test, and either the next call of
`walletSendCallsTap` or the `finally` block and the end of the call. -/
def afterSleep (i : Nat) (s : QueueState) : QueueState :=
  let s1 := { s with tapQueue := s.tapQueue - 1 }
  if 0 < s1.tapQueue then
    { s1 with loops := s1.loops.set i .attempting, started := s1.started + 1 }
  else { s1 with loops := s1.loops.eraseIdx i, tapSending := false }

/-- One transition; `none` when the event cannot happen in the state. -/
def step (s : QueueState) : QueueEvent → Option QueueState
  | .enqueue => some (enqueueTapTx s)
  | .attemptResumes i => if s.loops[i]? = some .attempting then some s else none
  | .attemptSettles i _ =>
    if s.loops[i]? = some .attempting then
      some { s with loops := s.loops.set i .settling, settled := s.settled + 1 }
    else none
  | .timerFires i => if s.loops[i]? = some .settling then some (afterSleep i s) else none

/-- A schedule run from a state. -/
def run (s : QueueState) : List QueueEvent → Option QueueState
  | [] => some s
  | e :: es =>
    match step s e with
    | none => none
    | some s1 => run s1 es

/-- Number of taps in a schedule. -/
def taps (evs : List QueueEvent) : Nat := evs.count .enqueue

/-- What holds of the queue after `n` taps. -/
def Inv (s : QueueState) (n : Nat) : Prop :=
  (s.loops = [] ∧ s.tapSending = false ∧ s.tapQueue = 0 ∧ s.started = n ∧ s.settled = n) ∨
  (s.loops = [.attempting] ∧ s.tapSending = true ∧ 1 ≤ s.tapQueue ∧
    s.started = s.settled + 1 ∧ (s.settled : Int) + s.tapQueue = n) ∨
  (s.loops = [.settling] ∧ s.tapSending = true ∧ 1 ≤ s.tapQueue ∧
    s.started = s.settled ∧ (s.settled : Int) + s.tapQueue = n + 1)

/-- The schedule in which, `k` times over, the running attempt settles and
the timer of `sleep(220)` fires, with no tap in between. -/
def finish : Nat → List QueueEvent
  | 0 => []
  | k + 1 => .attemptSettles 0 false :: .timerFires 0 :: finish k

/-- The rest of a drain from a state with one loop: the timer first when
the loop is in `sleep(220)`, then one settled attempt and one timer for
each tap left in the queue. -/
def finishFrom (s : QueueState) : List QueueEvent :=
  match s.loops with
  | [.settling] => .timerFires 0 :: finish (s.tapQueue - 1).toNat
  | [.attempting] => finish s.tapQueue.toNat
  | _ => []

/-- Three taps, the second and third made while the first attempt is
suspended and while the first `sleep(220)` runs; the first attempt throws. -/
def threeTaps : List QueueEvent :=
  [.enqueue, .attemptResumes 0, .enqueue, .attemptSettles 0 true, .enqueue, .timerFires 0,
   .attemptSettles 0 false, .timerFires 0, .attemptResumes 0, .attemptSettles 0 false,
   .timerFires 0]

end Queue

/-! ## `ensureConnected`, interleaved

Every call of `ensureConnected` is suspended first at its `eth_accounts`
probe and then, possibly, at the promise held by `__connectInFlight`.
The machine keeps every call and every unanswered `eth_requestAccounts`
sent by `ensureConnected`; the scheduler decides which request of the
wallet settles next and with what. -/

namespace Connect

/-- Where a call of `ensureConnected` stands. -/
inductive CallerPc where
  /-- in `await provider.request({ method: "eth_accounts" })` -/
  | probing
  /-- it returned `__connectInFlight`, the promise numbered `promise` -/
  | awaiting (promise : Nat)
  /-- it resolved with an address -/
  | resolved (addr : String)
  /-- it failed with an error -/
  | rejected (e : Err)
  deriving DecidableEq, Repr

/-- The variables `__account` and `__connectInFlight`, the calls made so far
in the order they were made, the promises whose `eth_requestAccounts` is
unanswered, and the number of `eth_requestAccounts` sent by
`ensureConnected` (the next promise gets this number). -/
structure ConnState where
  account : Option String
  connectInFlight : Option Nat
  callers : List CallerPc
  pending : List Nat
  sent : Nat
  deriving DecidableEq, Repr

/-- What can happen next. -/
inductive ConnEvent where
  /-- some flow calls `ensureConnected(provider)` -/
  | call
  /-- the `eth_accounts` request of call `i` settles -/
  | probeSettles (i : Nat) (r : Except Err Reply)
  /-- the `eth_requestAccounts` request of promise `n` settles -/
  | connectSettles (n : Nat) (r : Except Err Reply)

/-- Page load. -/
def init : ConnState :=
  { account := none, connectInFlight := none, callers := [], pending := [], sent := 0 }

/-- Source: `ensureConnected` from its call to its first `await`. -/
def call (s : ConnState) : ConnState :=
  match s.account with
  | some a => { s with callers := s.callers ++ [.resolved a] }
  | none => { s with callers := s.callers ++ [.probing] }

/-- Source: the `try` around the probe: `existing?.[0]` when the request
resolved with a truthy first element, nothing otherwise. -/
def probed (r : Except Err Reply) : Option String :=
  match r with
  | .ok v => v.firstAccount
  | .error _ => none

/-- Source: call `i` of `ensureConnected` from the end of its probe on: the
cached-address return, or the test of `__connectInFlight`, the creation
of the promise (which sends `eth_requestAccounts` at once) and
`return __connectInFlight`. -/
def afterProbe (i : Nat) (r : Except Err Reply) (s : ConnState) : ConnState :=
  match probed r with
  | some addr => { s with account := some addr, callers := s.callers.set i (.resolved addr) }
  | none =>
    match s.connectInFlight with
    | none =>
      { s with connectInFlight := some s.sent, pending := s.pending ++ [s.sent],
               sent := s.sent + 1, callers := s.callers.set i (.awaiting s.sent) }
    | some n => { s with callers := s.callers.set i (.awaiting n) }

/-- Source: the body of the promise after `eth_requestAccounts` settles: the
rejection of the request, "No account selected", or the address. -/
def connectResult (r : Except Err Reply) : Except Err String :=
  match r with
  | .error e => .error e
  | .ok v =>
    match v.firstAccount with
    | none => .error "No account selected"
    | some addr => .ok addr

/-- How a call that awaits the promise ends. -/
def settledPc (res : Except Err String) : CallerPc :=
  match res with
  | .ok addr => .resolved addr
  | .error e => .rejected e

/-- Source: promise `n` from the end of its `eth_requestAccounts` on:
`__account = addr` on success, the `finally` callback
`__connectInFlight = null`, and the settling of every call that awaits it. -/
def afterConnect (n : Nat) (r : Except Err Reply) (s : ConnState) : ConnState :=
  { s with
    account := (match connectResult r with
      | .ok addr => some addr
      | .error _ => s.account)
    connectInFlight := none
    pending := s.pending.erase n
    callers := s.callers.map
      (fun c => if c = .awaiting n then settledPc (connectResult r) else c) }

/-- One transition; `none` when the event cannot happen in the state. -/
def step (s : ConnState) : ConnEvent → Option ConnState
  | .call => some (call s)
  | .probeSettles i r => if s.callers[i]? = some .probing then some (afterProbe i r s) else none
  | .connectSettles n r => if n ∈ s.pending then some (afterConnect n r s) else none

/-- A schedule run from a state. -/
def run (s : ConnState) : List ConnEvent → Option ConnState
  | [] => some s
  | e :: es =>
    match step s e with
    | none => none
    | some s1 => run s1 es

/-- What holds of the marker, the unanswered requests and the waiting calls. -/
def Inv (s : ConnState) : Prop :=
  (s.connectInFlight = none ∧ s.pending = [] ∧ ∀ c ∈ s.callers, ∀ m, c ≠ .awaiting m) ∨
  (∃ n, s.connectInFlight = some n ∧ s.pending = [n] ∧
    ∀ c ∈ s.callers, ∀ m, c = .awaiting m → m = n)

/-- The first call finds no account and opens the prompt; a second call is
made while the prompt is open; the user declines; then the probe of the
second call comes back empty. -/
def lateProbe : List ConnEvent :=
  [.call, .probeSettles 0 (.ok (.accounts [])), .call,
   .connectSettles 0 (.error "User rejected the request"),
   .probeSettles 1 (.ok (.accounts []))]

/-- Two calls find no account; the first opens the prompt and the second,
whose probe failed, joins it. -/
def sharedPrompt : List ConnEvent :=
  [.call, .call, .probeSettles 0 (.ok (.accounts [])), .probeSettles 1 (.error "busy")]

end Connect

/-! ## The interactive requests of the whole page

The tap queue reaches the wallet through `ensureConnected` and
`ensureBaseMainnet`; the tip flow and the earn flow reach it through
`walletSendCallsUsdc`, which sends `eth_requestAccounts` itself and then
calls `ensureBaseMainnet`. The machine below interleaves them. -/

namespace System

/-- Where the async body created by `ensureBaseMainnet` stands. -/
inductive SwitchPc where
  /-- in the first `await provider.request({ method: "eth_chainId" })` -/
  | readingChain
  /-- in `await provider.request({ method: "wallet_switchEthereumChain", ... })` -/
  | switching
  /-- in the second `await provider.request({ method: "eth_chainId" })` -/
  | rereading
  deriving DecidableEq, Repr

/-- The state of the page as far as interactive requests go: the state of
`ensureConnected`, the number of `walletSendCallsUsdc` calls suspended at
their own `eth_requestAccounts`, the marker `__switchInFlight`, the running
bodies of `ensureBaseMainnet` by promise number, and the number of
promises it created. -/
structure SysState where
  conn : Connect.ConnState
  direct : Nat
  switchInFlight : Option Nat
  bodies : List (Nat × SwitchPc)
  created : Nat
  deriving DecidableEq, Repr

/-- What can happen next. -/
inductive SysEvent where
  /-- a step of `ensureConnected`, called by `walletSendCallsTap` -/
  | tapConnect (e : Connect.ConnEvent)
  /-- `walletSendCallsUsdc` (tip or earn flow) sends its `eth_requestAccounts` -/
  | usdcRequestsAccounts
  /-- an `eth_requestAccounts` of `walletSendCallsUsdc` settles -/
  | usdcAccountsSettle (r : Except Err Reply)
  /-- `walletSendCallsTap` or `walletSendCallsUsdc` calls `ensureBaseMainnet` -/
  | ensureBaseMainnetCall
  /-- an `eth_chainId` request of body `n` settles -/
  | chainIdSettles (n : Nat) (r : Except Err Reply)
  /-- the `wallet_switchEthereumChain` request of body `n` settles -/
  | switchSettles (n : Nat) (r : Except Err Reply)

/-- Page load. -/
def init : SysState :=
  { conn := Connect.init, direct := 0, switchInFlight := none, bodies := [], created := 0 }

/-- Source: `ensureBaseMainnet` from its call to the first `await` of the
body it may create. -/
def ensureBaseMainnetCall (s : SysState) : SysState :=
  match s.switchInFlight with
  | none =>
    { s with switchInFlight := some s.created, bodies := s.bodies ++ [(s.created, .readingChain)],
             created := s.created + 1 }
  | some _ => s

/-- Body `n` settles: it leaves the list and the `finally` callback clears the marker. -/
def bodyEnds (n : Nat) (s : SysState) : SysState :=
  { s with switchInFlight := none, bodies := s.bodies.filter (fun b => b.1 != n) }

/-- Body `n` moves on to the `await` given. -/
def bodyMoves (n : Nat) (pc : SwitchPc) (s : SysState) : SysState :=
  { s with bodies := s.bodies.map (fun b => if b.1 = n then (n, pc) else b) }

/-- Source: body `n` of `ensureBaseMainnet` after an `eth_chainId` request
settles: after the first read it returns when the chain matches and sends
the switch request otherwise; after the second read it returns or throws. -/
def afterChainId (n : Nat) (pc : SwitchPc) (r : Except Err Reply) (s : SysState) : SysState :=
  match pc, r with
  | .readingChain, .ok v =>
    if v.asChainId = some BASE_MAINNET_CHAIN_ID then bodyEnds n s
    else bodyMoves n .switching s
  | _, _ => bodyEnds n s

/-- Source: body `n` of `ensureBaseMainnet` after the switch request
settles: it throws on a rejection and reads the chain again otherwise. -/
def afterSwitch (n : Nat) (r : Except Err Reply) (s : SysState) : SysState :=
  match r with
  | .error _ => bodyEnds n s
  | .ok _ => bodyMoves n .rereading s

/-- One transition; `none` when the event cannot happen in the state. -/
def step (s : SysState) : SysEvent → Option SysState
  | .tapConnect e =>
    match Connect.step s.conn e with
    | some c => some { s with conn := c }
    | none => none
  | .usdcRequestsAccounts => some { s with direct := s.direct + 1 }
  | .usdcAccountsSettle _ => if 0 < s.direct then some { s with direct := s.direct - 1 } else none
  | .ensureBaseMainnetCall => some (ensureBaseMainnetCall s)
  | .chainIdSettles n r =>
    if (n, SwitchPc.readingChain) ∈ s.bodies then some (afterChainId n .readingChain r s)
    else if (n, SwitchPc.rereading) ∈ s.bodies then some (afterChainId n .rereading r s)
    else none
  | .switchSettles n r =>
    if (n, SwitchPc.switching) ∈ s.bodies then some (afterSwitch n r s) else none

/-- A schedule run from a state. -/
def run (s : SysState) : List SysEvent → Option SysState
  | [] => some s
  | e :: es =>
    match step s e with
    | none => none
    | some s1 => run s1 es

/-- Number of `eth_requestAccounts` requests that are unanswered. -/
def outstandingConnect (s : SysState) : Nat := s.conn.pending.length + s.direct

/-- Number of `wallet_switchEthereumChain` requests that are unanswered. -/
def outstandingSwitch (s : SysState) : Nat :=
  (s.bodies.filter (fun b => b.2 = SwitchPc.switching)).length

/-- What holds of the marker and the bodies of `ensureBaseMainnet`. -/
def SwitchInv (s : SysState) : Prop :=
  (s.switchInFlight = none ∧ s.bodies = []) ∨
  (∃ n pc, s.switchInFlight = some n ∧ s.bodies = [(n, pc)])

/-- A tap on a page whose wallet has no authorised account opens the
connect prompt through `ensureConnected`; while it is open the user
presses "Earn with 1 USDC" and `walletSendCallsUsdc` sends its own
`eth_requestAccounts`. -/
def tapThenEarn : List SysEvent :=
  [.tapConnect .call, .tapConnect (.probeSettles 0 (.ok (.accounts []))), .usdcRequestsAccounts]

end System

/-- A connected wallet on Base that accepts every bundle under the id
`0xb1` and reports it confirmed, with one successful receipt, on the first
status query. -/
def confirmingWallet : Provider Unit :=
  tableWallet (fun r => match r with
    | .eth_accounts => .ok (.accounts ["0xA11ce"])
    | .eth_requestAccounts => .ok (.accounts ["0xA11ce"])
    | .eth_chainId => .ok (.chainId "0x2105")
    | .wallet_sendCalls _ => .ok (.bundle (some "0xb1"))
    | .wallet_getCallsStatus _ => .ok (.callsStatus (some 200) ["0x1"])
    | _ => .ok .null)

/-- One tap queued on a page whose `localStorage` holds
`pata = tapCounter = 9007199254740992`, that is `2 ^ 53`. -/
def oneTapAtLimit : World Unit :=
  { World.init () with tapQueue := 1, tapCounter := 9007199254740992, pata := 9007199254740992 }

/-- The outcome of a pass with the stored counter and `pata` after it. -/
def passSummary {σ : Type} (r : Option (AttemptOutcome × World σ)) :
    Option (AttemptOutcome × Nat × Nat) :=
  r.map (fun x => (x.1, x.2.tapCounter, x.2.pata))

/-- The world at page load with two taps in the queue. -/
def twoTapsQueued : World Unit :=
  { World.init () with tapQueue := 2 }

/-- The status object `{ status: 100 }` the poller returns when the wallet
does not implement `wallet_getCallsStatus`. -/
def unsupportedStatus : Reply := .callsStatus (some 100) []

/-! ## Theorems -/

/-- C2, evaluated on the code: the wallet reports status 200 with one receipt of
status "0x0" on every query. The `try` block raises "Transaction reverted." on
the first tick, but the enclosing `catch` swallows it: the poller sends 57
status queries and ends, 45600 ms later, with the timeout error. -/
theorem waitForCallBundleFinal_reverted_receipt_polls_on :
    pollTry (revertedReceiptWallet.request () (.wallet_getCallsStatus "0xb1")).result
        = .error "Transaction reverted." ∧
      isUnsupportedMessage "Transaction reverted." = false ∧
      pollSummary (waitForCallBundleFinal revertedReceiptWallet "0xb1" {} (World.init ()))
        = some (.error pendingTooLong, 57, 45600) := by
  refine ⟨by decide, by decide, by decide⟩

/-- C3, evaluated on the code: the wallet reports status 400 on every query.
The `try` block raises "Transaction failed (wallet/bundler)." on the first
tick, but the enclosing `catch` swallows it: the poller sends 57 status
queries and ends, 45600 ms later, with the timeout error. -/
theorem waitForCallBundleFinal_failure_code_polls_on :
    pollTry (failedBundleWallet.request () (.wallet_getCallsStatus "0xb1")).result
        = .error "Transaction failed (wallet/bundler)." ∧
      isUnsupportedMessage "Transaction failed (wallet/bundler)." = false ∧
      pollSummary (waitForCallBundleFinal failedBundleWallet "0xb1" {} (World.init ()))
        = some (.error pendingTooLong, 57, 45600) := by
  refine ⟨by decide, by decide, by decide⟩


/-- C10: `ensureBaseMainnet` resolves only with a chain id that is `===` the
required chain `0x2105`; when the first chain-id read matches, it resolves
with it after that single request and sends no switch request; when the
first read differs, the switch request resolves, and the second read still
differs, it fails with "Could not switch to Base Mainnet". -/
theorem ensureBaseMainnet_only_required_chain {σ : Type} (p : Provider σ) (w : World σ) :
    (∀ v, (ensureBaseMainnet p w).1 = .ok v → v.asChainId = some "0x2105") ∧
    (∀ v, (request p .eth_chainId w).1 = .ok v → v.asChainId = some "0x2105" →
        (ensureBaseMainnet p w).1 = .ok v ∧
        (ensureBaseMainnet p w).2.log = w.log ++ [.eth_chainId] ∧
        countRpc Rpc.isSwitchChain (ensureBaseMainnet p w).2.log
          = countRpc Rpc.isSwitchChain w.log) ∧
    (∀ v r next,
        (request p .eth_chainId w).1 = .ok v → v.asChainId ≠ some "0x2105" →
        (request p (.wallet_switchEthereumChain "0x2105") (request p .eth_chainId w).2).1
          = .ok r →
        (request p .eth_chainId
          (request p (.wallet_switchEthereumChain "0x2105") (request p .eth_chainId w).2).2).1
          = .ok next →
        next.asChainId ≠ some "0x2105" →
        (ensureBaseMainnet p w).1 = .error "Could not switch to Base Mainnet") := by
  refine ⟨?_, ?_, ?_⟩
  · intro v hv
    unfold ensureBaseMainnet at hv
    simp only [BASE_MAINNET_CHAIN_ID] at hv
    split at hv
    · simp at hv
    · split at hv
      · simp only [Except.ok.injEq] at hv
        subst hv
        assumption
      · split at hv
        · simp at hv
        · split at hv
          · simp at hv
          · split at hv
            · simp at hv
            · rename_i hne
              simp only [Except.ok.injEq] at hv
              subst hv
              simpa using hne
  · intro v h1 h2
    unfold ensureBaseMainnet
    simp only [BASE_MAINNET_CHAIN_ID, h1, h2, if_true, true_and]
    simp [request, countRpc, Rpc.isSwitchChain]
  · intro v r next h1 h2 h3 h4 h5
    unfold ensureBaseMainnet
    simp only [BASE_MAINNET_CHAIN_ID, h1, h2, h3, h4, h5, if_false, ne_eq, not_false_eq_true,
      if_true]

/-- C10, instance: a wallet on chain `0x1` that accepts the switch request
and still reports `0x1` afterwards. -/
theorem ensureBaseMainnet_only_required_chain_witness :
    (ensureBaseMainnet
        (tableWallet (fun r => match r with
          | .eth_chainId => .ok (.chainId "0x1")
          | _ => .ok .null)) (World.init ())).1
      = .error "Could not switch to Base Mainnet" :=
  (ensureBaseMainnet_only_required_chain
      (tableWallet (fun r => match r with
        | .eth_chainId => .ok (.chainId "0x1")
        | _ => .ok .null)) (World.init ())).2.2
    (.chainId "0x1") .null (.chainId "0x1") rfl (by decide) rfl rfl (by decide)


/-- The log after a request is the log before it followed by the request. -/
theorem request_log {σ : Type} (p : Provider σ) (r : Rpc) (w : World σ) :
    (request p r w).2.log = w.log ++ [r] := rfl

/-- Counting over a log extended by one request. -/
theorem countRpc_append_one (f : Rpc → Bool) (log : List Rpc) (r : Rpc) :
    countRpc f (log ++ [r]) = countRpc f log + (if f r then 1 else 0) := by
  unfold countRpc
  rw [List.filter_append, List.length_append]
  by_cases h : f r <;> simp [List.filter, h]

/-- The capability lookup sends either nothing or one `wallet_getCapabilities`. -/
theorem getWalletCapabilities_log {σ : Type} (p : Provider σ) (a : String) (w : World σ) :
    (getWalletCapabilities p a w).2.log = w.log ∨
    (getWalletCapabilities p a w).2.log = w.log ++ [.wallet_getCapabilities a] := by
  unfold getWalletCapabilities
  split
  · exact Or.inl rfl
  · right
    simp only []
    split <;> rfl

/-- Attaching the paymaster sends either nothing or one `wallet_getCapabilities`. -/
theorem maybeAttachPaymaster_log {σ : Type} (env : Env σ) (p : Provider σ) (a : String)
    (req : CallRequest) (w : World σ) :
    (maybeAttachPaymaster env p a req w).2.log = w.log ∨
    (maybeAttachPaymaster env p a req w).2.log = w.log ++ [.wallet_getCapabilities a] := by
  unfold maybeAttachPaymaster
  split
  · exact Or.inl rfl
  · simp only []
    split <;> exact getWalletCapabilities_log p a w

/-- Attaching the paymaster sends no `wallet_sendCalls`. -/
theorem maybeAttachPaymaster_sends {σ : Type} (env : Env σ) (p : Provider σ) (a : String)
    (req : CallRequest) (w : World σ) :
    countRpc Rpc.isSendCalls (maybeAttachPaymaster env p a req w).2.log
      = countRpc Rpc.isSendCalls w.log := by
  rcases maybeAttachPaymaster_log env p a req w with h | h
  · rw [h]
  · rw [h, countRpc_append_one]
    simp [Rpc.isSendCalls]

/-- C5: one call of `sendCallsWithPaymasterFallback` sends at least one and at
most two `wallet_sendCalls` requests; when the first send is rejected with
error `e` and sponsorship was not attached, that send is the only one and
the call fails with `e`. -/
theorem sendCallsWithPaymasterFallback_at_most_two_sends {σ : Type} (env : Env σ)
    (p : Provider σ) (sender : String) (req : CallRequest) (w : World σ) :
    countRpc Rpc.isSendCalls w.log + 1
        ≤ countRpc Rpc.isSendCalls (sendCallsWithPaymasterFallback env p sender req w).2.log ∧
    countRpc Rpc.isSendCalls (sendCallsWithPaymasterFallback env p sender req w).2.log
        ≤ countRpc Rpc.isSendCalls w.log + 2 ∧
    (∀ e,
        (request p (.wallet_sendCalls (maybeAttachPaymaster env p sender req w).1.2)
          (maybeAttachPaymaster env p sender req w).2).1 = .error e →
        (maybeAttachPaymaster env p sender req w).1.1 = false →
        (sendCallsWithPaymasterFallback env p sender req w).1 = .error e ∧
        (sendCallsWithPaymasterFallback env p sender req w).2.log
          = (maybeAttachPaymaster env p sender req w).2.log
              ++ [.wallet_sendCalls (maybeAttachPaymaster env p sender req w).1.2] ∧
        countRpc Rpc.isSendCalls (sendCallsWithPaymasterFallback env p sender req w).2.log
          = countRpc Rpc.isSendCalls w.log + 1) := by
  have hs := maybeAttachPaymaster_sends env p sender req w
  unfold sendCallsWithPaymasterFallback
  generalize maybeAttachPaymaster env p sender req w = att at hs ⊢
  obtain ⟨⟨attached, req1⟩, w1⟩ := att
  simp only [] at hs ⊢
  cases hfirst : (request p (.wallet_sendCalls req1) w1).1 with
  | ok res =>
    simp only [request_log, countRpc_append_one, Rpc.isSendCalls, if_true, hs]
    refine ⟨le_rfl, by omega, ?_⟩
    intro e he
    simp at he
  | error e0 =>
    cases attached with
    | false =>
      simp only [request_log, countRpc_append_one, Rpc.isSendCalls, if_true, hs,
        Bool.false_eq_true, if_false]
      refine ⟨le_rfl, by omega, ?_⟩
      intro e he _
      simp only [Except.error.injEq] at he
      subst he
      simp
    | true =>
      simp only [if_true]
      cases hsecond : (request p (.wallet_sendCalls (deletePaymaster req1))
          (request p (.wallet_sendCalls req1) w1).2).1 with
      | ok res2 =>
        simp only [request_log, countRpc_append_one, Rpc.isSendCalls, if_true, hs]
        refine ⟨by omega, le_rfl, ?_⟩
        intro e _ h
        simp at h
      | error e2 =>
        simp only [request_log, countRpc_append_one, Rpc.isSendCalls, if_true, hs]
        refine ⟨by omega, le_rfl, ?_⟩
        intro e _ h
        simp at h


/-- C5, instance: no sponsorship endpoint is configured and the wallet rejects
the send; the rejection is the error of the call. -/
theorem sendCallsWithPaymasterFallback_at_most_two_sends_witness :
    (sendCallsWithPaymasterFallback (plainEnv rejectingWallet) rejectingWallet "0xA11ce"
        sampleRequest (World.init ())).1 = .error "policy rejected" :=
  ((sendCallsWithPaymasterFallback_at_most_two_sends (plainEnv rejectingWallet)
      rejectingWallet "0xA11ce" sampleRequest (World.init ())).2.2
    "policy rejected" rfl rfl).1

/-- When sponsorship is attached, the request sent first is the given one with
`capabilities.paymasterService` set to the configured endpoint. -/
theorem maybeAttachPaymaster_attached {σ : Type} (env : Env σ) (p : Provider σ) (a : String)
    (req : CallRequest) (w : World σ)
    (h : (maybeAttachPaymaster env p a req w).1.1 = true) :
    (maybeAttachPaymaster env p a req w).1.2
      = { req with capabilities := some (ReqCapabilities.mk
            (req.capabilities.getD (ReqCapabilities.mk none none)).dataSuffix
            (some env.PAYMASTER_SERVICE_URL)) } := by
  unfold maybeAttachPaymaster at h ⊢
  split at h
  · simp at h
  · rename_i hurl
    simp only [hurl, if_false] at h ⊢
    split at h
    · simp at h
    · rename_i hsup
      simp only [hsup, if_false]
      simp

/-- C6: when sponsorship was attached and the first send is rejected with
error `e`, the call sends exactly one more `wallet_sendCalls`; the retried
request has no `paymasterService` and agrees with the first request in
`version`, `id`, `from`, `chainId`, `atomicRequired`, `calls` and the
attribution capability; the call resolves with the retry's result when the
retry resolves, and fails with `e` when the retry is rejected. -/
theorem sendCallsWithPaymasterFallback_retries_once_without_paymaster {σ : Type}
    (env : Env σ) (p : Provider σ) (sender : String) (req : CallRequest) (w : World σ)
    (e : Err)
    (hatt : (maybeAttachPaymaster env p sender req w).1.1 = true)
    (hfail : (request p (.wallet_sendCalls (maybeAttachPaymaster env p sender req w).1.2)
        (maybeAttachPaymaster env p sender req w).2).1 = .error e) :
    ∃ req1 req2 : CallRequest,
      req1 = (maybeAttachPaymaster env p sender req w).1.2 ∧
      (sendCallsWithPaymasterFallback env p sender req w).2.log
        = (maybeAttachPaymaster env p sender req w).2.log
            ++ [.wallet_sendCalls req1, .wallet_sendCalls req2] ∧
      req1.capabilities.bind (·.paymasterService) = some env.PAYMASTER_SERVICE_URL ∧
      req2.capabilities.bind (·.paymasterService) = none ∧
      req2.version = req1.version ∧ req2.id = req1.id ∧ req2.sender = req1.sender ∧
      req2.chainId = req1.chainId ∧ req2.atomicRequired = req1.atomicRequired ∧
      req2.calls = req1.calls ∧
      req2.capabilities.bind (·.dataSuffix) = req1.capabilities.bind (·.dataSuffix) ∧
      (∀ res,
        (request p (.wallet_sendCalls req2)
          (request p (.wallet_sendCalls req1) (maybeAttachPaymaster env p sender req w).2).2).1
          = .ok res →
        (sendCallsWithPaymasterFallback env p sender req w).1 = .ok res) ∧
      (∀ e2,
        (request p (.wallet_sendCalls req2)
          (request p (.wallet_sendCalls req1) (maybeAttachPaymaster env p sender req w).2).2).1
          = .error e2 →
        (sendCallsWithPaymasterFallback env p sender req w).1 = .error e) := by
  have hreq := maybeAttachPaymaster_attached env p sender req w hatt
  refine ⟨(maybeAttachPaymaster env p sender req w).1.2,
    deletePaymaster (maybeAttachPaymaster env p sender req w).1.2, rfl, ?_⟩
  unfold sendCallsWithPaymasterFallback
  generalize maybeAttachPaymaster env p sender req w = att at hatt hfail hreq ⊢
  obtain ⟨⟨attached, req1⟩, w1⟩ := att
  simp only [] at hatt hfail hreq ⊢
  subst hatt
  simp only [hfail, if_true]
  have hdel : deletePaymaster req1
      = { req1 with capabilities := some (ReqCapabilities.mk
            (req.capabilities.getD (ReqCapabilities.mk none none)).dataSuffix none) } := by
    rw [hreq]
    simp [deletePaymaster]
  refine ⟨?_, ?_, ?_, ?_, ?_, ?_, ?_, ?_, ?_, ?_, ?_, ?_⟩
  · cases (request p (.wallet_sendCalls (deletePaymaster req1))
        (request p (.wallet_sendCalls req1) w1).2).1 <;> simp [request_log]
  · rw [hreq]; rfl
  · rw [hdel]; rfl
  · rw [hdel]
  · rw [hdel]
  · rw [hdel]
  · rw [hdel]
  · rw [hdel]
  · rw [hdel]
  · rw [hdel, hreq]; rfl
  · intro res hres
    simp only [hres]
  · intro e2 hres
    simp only [hres]

/-- C6, instance: sponsorship is configured and supported, the wallet rejects
both sends: two sends are logged and the first rejection is the error. -/
theorem sendCallsWithPaymasterFallback_retries_once_without_paymaster_witness :
    ∃ req1 req2 : CallRequest,
      (sendCallsWithPaymasterFallback (sponsoredEnv rejectingWallet) rejectingWallet "0xA11ce"
          sampleRequest (World.init ())).2.log
        = [.wallet_getCapabilities "0xA11ce", .wallet_sendCalls req1, .wallet_sendCalls req2] ∧
      req1.capabilities.bind (·.paymasterService) = some "https://paymaster.example/rpc" ∧
      req2.capabilities.bind (·.paymasterService) = none ∧
      (sendCallsWithPaymasterFallback (sponsoredEnv rejectingWallet) rejectingWallet "0xA11ce"
          sampleRequest (World.init ())).1 = .error "policy rejected" := by
  obtain ⟨req1, req2, _, hlog, h1, h2, _, _, _, _, _, _, _, _, herr⟩ :=
    sendCallsWithPaymasterFallback_retries_once_without_paymaster
      (sponsoredEnv rejectingWallet) rejectingWallet "0xA11ce" sampleRequest (World.init ())
      "policy rejected" (by decide) (by decide)
  exact ⟨req1, req2, hlog, h1, h2, herr "policy rejected" rfl⟩


/-- C7, evaluated on the code: with a sponsorship endpoint configured and a
wallet that resolves `wallet_getCapabilities` with `null`, the cache stays
falsy and the second submission queries the wallet again (two capability
queries); a wallet that rejects the query is asked once only, the empty
object being cached. -/
theorem getWalletCapabilities_null_reply_queried_again :
    (maybeAttachPaymaster (sponsoredEnv nullCapsWallet) nullCapsWallet "0xA11ce" sampleRequest
        (World.init ())).2.walletCaps = none ∧
    (maybeAttachPaymaster (sponsoredEnv nullCapsWallet) nullCapsWallet "0xA11ce" sampleRequest
        (maybeAttachPaymaster (sponsoredEnv nullCapsWallet) nullCapsWallet "0xA11ce"
          sampleRequest (World.init ())).2).2.log
      = [.wallet_getCapabilities "0xA11ce", .wallet_getCapabilities "0xA11ce"] ∧
    (maybeAttachPaymaster (sponsoredEnv failingCapsWallet) failingCapsWallet "0xA11ce"
        sampleRequest
        (maybeAttachPaymaster (sponsoredEnv failingCapsWallet) failingCapsWallet "0xA11ce"
          sampleRequest (World.init ())).2).2.log
      = [.wallet_getCapabilities "0xA11ce"] := by
  refine ⟨by decide, by decide, by decide⟩

/-! ### Facts about the poller and the capability cache -/

/-- A status code outside both ranges leaves the tick pending. -/
theorem pollTry_pending (status : Reply) (h1 : inSuccessRange status.statusCode = false)
    (h2 : inFailureRange status.statusCode = false) : pollTry (.ok status) = .ok none := by
  simp [pollTry, h1, h2]

/-- The only error the poller loop ends with is the timeout: the errors
raised inside the `try` block never leave the loop. -/
theorem waitLoop_error_is_timeout {σ : Type} (p : Provider σ) (bundleId : String)
    (opts : WaitOptions) (start : Nat) : ∀ (fuel : Nat) (w w1 : World σ) (e : Err),
      waitLoop p bundleId opts start fuel w = some (.error e, w1) → e = pendingTooLong
  | 0, w, w1, e, h => by simp [waitLoop] at h
  | fuel + 1, w, w1, e, h => by
    unfold waitLoop at h
    split at h
    · simp only [Option.some.injEq, Prod.mk.injEq, Except.error.injEq] at h
      exact h.1.symm
    · simp only [] at h
      split at h
      · simp at h
      · exact waitLoop_error_is_timeout p bundleId opts start fuel
          (sleep opts.pollMs (request p (Rpc.wallet_getCallsStatus bundleId) w).2) w1 e h
      · split at h
        · simp at h
        · exact waitLoop_error_is_timeout p bundleId opts start fuel
            (sleep opts.pollMs (request p (Rpc.wallet_getCallsStatus bundleId) w).2) w1 e h

/-- A truthy cached value is returned without a request. -/
theorem getWalletCapabilities_cached {σ : Type} (p : Provider σ) (a : String) (w : World σ)
    (c : Caps) (h : w.walletCaps = some c) :
    getWalletCapabilities p a w = (some c, w) := by
  simp [getWalletCapabilities, h]

/-- After a rejected capability query the empty object is cached. -/
theorem getWalletCapabilities_failure_cached {σ : Type} (p : Provider σ) (a : String)
    (w : World σ) (e : Err) (h0 : w.walletCaps = none)
    (h : (request p (.wallet_getCapabilities a) w).1 = .error e) :
    (getWalletCapabilities p a w).2.walletCaps = some [] := by
  unfold getWalletCapabilities
  simp only [h0]
  split
  · rename_i heq
    rw [heq] at h
    simp at h
  · rfl

/-! ### What the wallet-facing functions leave alone -/

theorem request_counters {σ : Type} (p : Provider σ) (r : Rpc) (w : World σ) :
    (request p r w).2.counters = w.counters := rfl

theorem sleep_counters {σ : Type} (ms : Nat) (w : World σ) :
    (sleep ms w).counters = w.counters := rfl

theorem reportError_counters {σ : Type} (e : Err) (w : World σ) :
    (reportError e w).counters = w.counters := rfl

theorem getWalletCapabilities_counters {σ : Type} (p : Provider σ) (a : String)
    (w : World σ) : (getWalletCapabilities p a w).2.counters = w.counters := by
  unfold getWalletCapabilities
  split
  · rfl
  · simp only []
    split <;> rfl

theorem maybeAttachPaymaster_counters {σ : Type} (env : Env σ) (p : Provider σ) (a : String)
    (req : CallRequest) (w : World σ) :
    (maybeAttachPaymaster env p a req w).2.counters = w.counters := by
  unfold maybeAttachPaymaster
  split
  · rfl
  · simp only []
    split <;> exact getWalletCapabilities_counters p a w

theorem sendCallsWithPaymasterFallback_counters {σ : Type} (env : Env σ) (p : Provider σ)
    (a : String) (req : CallRequest) (w : World σ) :
    (sendCallsWithPaymasterFallback env p a req w).2.counters = w.counters := by
  have h := maybeAttachPaymaster_counters env p a req w
  unfold sendCallsWithPaymasterFallback
  generalize maybeAttachPaymaster env p a req w = att at h ⊢
  obtain ⟨⟨attached, req1⟩, w1⟩ := att
  simp only [] at h ⊢
  split
  · rw [request_counters, h]
  · split
    · split <;> rw [request_counters, request_counters, h]
    · rw [request_counters, h]

theorem ensureConnected_counters {σ : Type} (p : Provider σ) (w : World σ) :
    (ensureConnected p w).2.counters = w.counters := by
  unfold ensureConnected
  split
  · rfl
  · simp only []
    split
    · rfl
    · split
      · rfl
      · split <;> rfl

theorem ensureBaseMainnet_counters {σ : Type} (p : Provider σ) (w : World σ) :
    (ensureBaseMainnet p w).2.counters = w.counters := by
  unfold ensureBaseMainnet
  simp only []
  split
  · rfl
  · split
    · rfl
    · split
      · rfl
      · split
        · rfl
        · split <;> rfl

theorem walletSendCallsTap_counters {σ : Type} (env : Env σ) (counter : Nat) (w : World σ) :
    (walletSendCallsTap env counter w).2.counters = w.counters := by
  have h1 := @ensureConnected_counters σ
  have h2 := @ensureBaseMainnet_counters σ
  unfold walletSendCallsTap
  split
  · rfl
  · rename_i p _
    simp only []
    split
    · exact h1 p w
    · split
      · rw [h2, h1]
      · rw [sendCallsWithPaymasterFallback_counters]
        exact (h2 p _).trans (h1 p w)

theorem waitLoop_counters {σ : Type} (p : Provider σ) (bundleId : String) (opts : WaitOptions)
    (start : Nat) : ∀ (fuel : Nat) (w : World σ) (o : Outcome σ Reply),
      waitLoop p bundleId opts start fuel w = some o → o.2.counters = w.counters
  | 0, w, o, h => by simp [waitLoop] at h
  | fuel + 1, w, o, h => by
    unfold waitLoop at h
    split at h
    · simp only [Option.some.injEq] at h
      subst h
      rfl
    · simp only [] at h
      split at h
      · simp only [Option.some.injEq] at h
        subst h
        rfl
      · exact waitLoop_counters p bundleId opts start fuel
          (sleep opts.pollMs (request p (Rpc.wallet_getCallsStatus bundleId) w).2) o h
      · split at h
        · simp only [Option.some.injEq] at h
          subst h
          rfl
        · exact waitLoop_counters p bundleId opts start fuel
            (sleep opts.pollMs (request p (Rpc.wallet_getCallsStatus bundleId) w).2) o h


/-! ### The poller and the drain loop return -/

/-- With a positive poll interval, `fuel + 1` passes are enough as soon as
`fuel` intervals exceed what is left of the timeout. -/
theorem waitLoop_returns {σ : Type} (p : Provider σ) (bundleId : String) (opts : WaitOptions)
    (start : Nat) : ∀ (fuel : Nat) (w : World σ), start ≤ w.now →
      opts.timeoutMs + 1 ≤ (w.now - start) + fuel * opts.pollMs →
      ∃ o, waitLoop p bundleId opts start (fuel + 1) w = some o
  | 0, w, _, h => by
    unfold waitLoop
    have : w.now - start > opts.timeoutMs := by omega
    simp [this]
  | fuel + 1, w, hs, h => by
    have hstep : ∃ o, waitLoop p bundleId opts start (fuel + 1)
        (sleep opts.pollMs (request p (Rpc.wallet_getCallsStatus bundleId) w).2) = some o := by
      apply waitLoop_returns p bundleId opts start fuel
      · simp only [sleep, request]
        omega
      · simp only [sleep, request]
        have : (fuel + 1) * opts.pollMs = fuel * opts.pollMs + opts.pollMs := by ring
        omega
    rw [waitLoop]
    split
    · exact ⟨_, rfl⟩
    · simp only []
      split
      · exact ⟨_, rfl⟩
      · exact hstep
      · split
        · exact ⟨_, rfl⟩
        · exact hstep

/-- The poller returns for every wallet when the poll interval is positive. -/
theorem waitForCallBundleFinal_returns {σ : Type} (p : Provider σ) (bundleId : String)
    (opts : WaitOptions) (hpoll : 0 < opts.pollMs) (w : World σ) :
    ∃ o, waitForCallBundleFinal p bundleId opts w = some o := by
  unfold waitForCallBundleFinal waitFuel
  apply waitLoop_returns p bundleId opts w.now (opts.timeoutMs / opts.pollMs + 1) w le_rfl
  have h1 := Nat.div_add_mod opts.timeoutMs opts.pollMs
  have h2 := Nat.mod_lt opts.timeoutMs hpoll
  have h3 : (opts.timeoutMs / opts.pollMs + 1) * opts.pollMs
      = opts.pollMs * (opts.timeoutMs / opts.pollMs) + opts.pollMs := by ring
  omega

/-! ### Counting in doubles -/

/-- The doubling stops at once when the number is within `2 ^ 53` gaps. -/
theorem doubleSpacingAux_of_lt (fuel n s : Nat) (h : n < 2 ^ 53 * s) :
    doubleSpacingAux fuel n s = s := by
  cases fuel with
  | zero => rfl
  | succ k => simp only [doubleSpacingAux, h, if_true]

/-- Below `2 ^ 53` adding one in doubles is exact. -/
theorem jsAddOne_of_lt (x : Nat) (h : x < 2 ^ 53) : jsAddOne x = x + 1 := by
  unfold jsAddOne roundToDouble doubleSpacing
  by_cases h1 : x + 1 < 2 ^ 53
  · rw [doubleSpacingAux_of_lt 971 (x + 1) 1 (by omega)]
    simp only [Nat.mod_one, Nat.div_one, Nat.mul_one, Nat.mul_zero, Nat.zero_lt_one, if_true]
  · have hx : x + 1 = 2 ^ 53 := by omega
    rw [hx]
    decide

/-- At `2 ^ 53` adding one in doubles changes nothing, and two above it adds two. -/
theorem jsAddOne_at_limit :
    jsAddOne 9007199254740992 = 9007199254740992 ∧
    jsAddOne 9007199254740994 = 9007199254740996 := by
  decide

/-- Adding one `k` times is exact while the sum stays within `2 ^ 53`. -/
theorem jsAddOne_iterate (k : Nat) :
    ∀ x : Nat, x + k ≤ 2 ^ 53 → jsAddOne^[k] x = x + k := by
  induction k with
  | zero => intro x _; rfl
  | succ k ih =>
    intro x h
    rw [Function.iterate_succ_apply, jsAddOne_of_lt x (by omega), ih (x + 1) (by omega)]
    omega

/-! ### What a pass of the drain loop does -/

/-- One attempt returns, leaves `tapQueue` and `tapSending` alone, and
adds one, in doubles, to the stored counter and to `pata` exactly when it
does not throw. -/
theorem tapAttempt_effect {σ : Type} (env : Env σ) (w : World σ) :
    ∃ o w1, tapAttempt env w = some (o, w1) ∧ w1.tapQueue = w.tapQueue ∧
      w1.tapSending = w.tapSending ∧
      w1.tapCounter = (if o.credited then jsAddOne w.tapCounter else w.tapCounter) ∧
      w1.pata = (if o.credited then jsAddOne w.pata else w.pata) := by
  have hsend := walletSendCallsTap_counters env (jsAddOne w.tapCounter) w
  unfold tapAttempt
  simp only []
  generalize walletSendCallsTap env (jsAddOne w.tapCounter) w = sent at hsend ⊢
  obtain ⟨res, w1⟩ := sent
  simp only [World.counters, Prod.mk.injEq] at hsend
  obtain ⟨hq, hs, hc, hp⟩ := hsend
  cases res with
  | error e =>
    exact ⟨_, _, rfl, hq, hs, by simpa [AttemptOutcome.credited, reportError] using hc,
      by simpa [AttemptOutcome.credited, reportError] using hp⟩
  | ok res =>
    simp only []
    cases hb : res.bundleId with
    | none =>
      exact ⟨_, _, rfl, hq, hs, by simp [AttemptOutcome.credited, commitTap, sleep],
        by simp [AttemptOutcome.credited, commitTap, sleep, hp]⟩
    | some bundleId =>
      simp only []
      cases hprov : getProvider env with
      | error e =>
        exact ⟨_, _, rfl, hq, hs, by simpa [AttemptOutcome.credited, reportError] using hc,
          by simpa [AttemptOutcome.credited, reportError] using hp⟩
      | ok p =>
        simp only []
        obtain ⟨o, ho⟩ := waitForCallBundleFinal_returns p bundleId {} (by decide) w1
        have hcnt := waitLoop_counters p bundleId {} w1.now _ w1 o ho
        rw [ho]
        obtain ⟨r, w2⟩ := o
        simp only [World.counters, Prod.mk.injEq] at hcnt
        obtain ⟨hq2, hs2, hc2, hp2⟩ := hcnt
        cases r with
        | error e =>
          refine ⟨_, _, rfl, ?_, ?_, ?_, ?_⟩ <;>
            simp [AttemptOutcome.credited, reportError, *]
        | ok status =>
          refine ⟨_, _, rfl, ?_, ?_, ?_, ?_⟩
          · simp [commitTap, *]
          · simp [commitTap, *]
          · by_cases hr : inSuccessRange status.statusCode <;>
              simp [commitTap, AttemptOutcome.credited, hr]
          · by_cases hr : inSuccessRange status.statusCode <;>
              simp [commitTap, AttemptOutcome.credited, hr, *]

/-- One pass of the drain loop returns, takes one tap off the queue (after
adding those that arrived), and adds one, in doubles, to the stored counter
and to `pata` exactly when the attempt does not throw. -/
theorem tapIteration_effect {σ : Type} (env : Env σ) (arrived : Nat) (w : World σ) :
    ∃ o w1, tapIteration env arrived w = some (o, w1) ∧
      w1.tapQueue = w.tapQueue + arrived - 1 ∧ w1.tapSending = w.tapSending ∧
      w1.tapCounter = (if o.credited then jsAddOne w.tapCounter else w.tapCounter) ∧
      w1.pata = (if o.credited then jsAddOne w.pata else w.pata) := by
  obtain ⟨o, w1, h, hq, hs, hc, hp⟩ := tapAttempt_effect env w
  refine ⟨o, _, by rw [tapIteration, h], ?_, ?_, ?_, ?_⟩ <;> simp [endPass, sleep, *]

/-- What a pass returns, case by case on what the submission and the poller
did: a throwing submission, a missing provider or a throwing poller give
`raised` with the error reported; a missing bundle id gives `noBundleId`
after `sleep(1200)` and the commit; a returning poller gives
`confirmedSuccess` or `unsupported` by the status code, and the commit. -/
theorem tapIteration_cases {σ : Type} (env : Env σ) (arrived : Nat) (w : World σ) :
    (∀ e w1, walletSendCallsTap env (jsAddOne w.tapCounter) w = (.error e, w1) →
      tapIteration env arrived w = some (.raised e, endPass arrived (reportError e w1))) ∧
    (∀ res w1, walletSendCallsTap env (jsAddOne w.tapCounter) w = (.ok res, w1) →
      res.bundleId = none →
      tapIteration env arrived w = some (.noBundleId,
        endPass arrived (commitTap (jsAddOne w.tapCounter) (sleep 1200 w1)))) ∧
    (∀ res w1 b e, walletSendCallsTap env (jsAddOne w.tapCounter) w = (.ok res, w1) →
      res.bundleId = some b → getProvider env = .error e →
      tapIteration env arrived w = some (.raised e, endPass arrived (reportError e w1))) ∧
    (∀ res w1 b p e w2, walletSendCallsTap env (jsAddOne w.tapCounter) w = (.ok res, w1) →
      res.bundleId = some b → getProvider env = .ok p →
      waitForCallBundleFinal p b {} w1 = some (.error e, w2) →
      tapIteration env arrived w = some (.raised e, endPass arrived (reportError e w2))) ∧
    (∀ res w1 b p status w2,
      walletSendCallsTap env (jsAddOne w.tapCounter) w = (.ok res, w1) →
      res.bundleId = some b → getProvider env = .ok p →
      waitForCallBundleFinal p b {} w1 = some (.ok status, w2) →
      tapIteration env arrived w
        = some (if inSuccessRange status.statusCode then .confirmedSuccess else .unsupported,
            endPass arrived (commitTap (jsAddOne w.tapCounter) w2))) := by
  refine ⟨?_, ?_, ?_, ?_, ?_⟩
  · intro e w1 h
    simp only [tapIteration, tapAttempt, h]
  · intro res w1 h hb
    simp only [tapIteration, tapAttempt, h, hb]
  · intro res w1 b e h hb hp
    simp only [tapIteration, tapAttempt, h, hb, hp]
  · intro res w1 b p e w2 h hb hp hw
    simp only [tapIteration, tapAttempt, h, hb, hp, hw]
  · intro res w1 b p status w2 h hb hp hw
    simp only [tapIteration, tapAttempt, h, hb, hp, hw]

/-- A failing guard or send makes `walletSendCallsTap` throw that error: no
provider, a failed `ensureConnected`, a failed `ensureBaseMainnet`, or a
failed `sendCallsWithPaymasterFallback`. -/
theorem walletSendCallsTap_errors {σ : Type} (env : Env σ) (counter : Nat) (w : World σ) :
    (∀ e, getProvider env = .error e → walletSendCallsTap env counter w = (.error e, w)) ∧
    (∀ p e, getProvider env = .ok p → (ensureConnected p w).1 = .error e →
      walletSendCallsTap env counter w = (.error e, (ensureConnected p w).2)) ∧
    (∀ p a e, getProvider env = .ok p → (ensureConnected p w).1 = .ok a →
      (ensureBaseMainnet p (ensureConnected p w).2).1 = .error e →
      walletSendCallsTap env counter w
        = (.error e, (ensureBaseMainnet p (ensureConnected p w).2).2)) ∧
    (∀ p a c, getProvider env = .ok p → (ensureConnected p w).1 = .ok a →
      (ensureBaseMainnet p (ensureConnected p w).2).1 = .ok c →
      walletSendCallsTap env counter w
        = sendCallsWithPaymasterFallback env p a
            (tapRequest env
              ("tap-" ++ toString (ensureBaseMainnet p (ensureConnected p w).2).2.now ++ "-"
                ++ env.random (ensureBaseMainnet p (ensureConnected p w).2).2.draws)
              a counter)
            { (ensureBaseMainnet p (ensureConnected p w).2).2 with
              draws := (ensureBaseMainnet p (ensureConnected p w).2).2.draws + 1 }) := by
  refine ⟨?_, ?_, ?_, ?_⟩
  · intro e h
    simp only [walletSendCallsTap, h]
  · intro p e h h1
    simp only [walletSendCallsTap, h]
    generalize ensureConnected p w = c at h1 ⊢
    obtain ⟨r, w1⟩ := c
    simp only at h1
    subst h1
    rfl
  · intro p a e h h1 h2
    simp only [walletSendCallsTap, h]
    generalize ensureConnected p w = c at h1 h2 ⊢
    obtain ⟨r, w1⟩ := c
    simp only at h1 h2
    subst h1
    simp only []
    generalize ensureBaseMainnet p w1 = d at h2 ⊢
    obtain ⟨r2, w2⟩ := d
    simp only at h2
    subst h2
    rfl
  · intro p a c h h1 h2
    simp only [walletSendCallsTap, h]
    generalize ensureConnected p w = cc at h1 h2 ⊢
    obtain ⟨r, w1⟩ := cc
    simp only at h1 h2
    subst h1
    simp only []
    generalize ensureBaseMainnet p w1 = d at h2 ⊢
    obtain ⟨r2, w2⟩ := d
    simp only at h2
    subst h2
    rfl

/-- A status the poller returns is either the wallet's reply to a status
query, with a code in the success range and no failed receipt, or
`{ status: 100 }` after a query that was rejected with an unsupported-method
message. -/
theorem waitLoop_ok_cases {σ : Type} (p : Provider σ) (bundleId : String)
    (opts : WaitOptions) (start : Nat) : ∀ (fuel : Nat) (w w2 : World σ) (status : Reply),
      waitLoop p bundleId opts start fuel w = some (.ok status, w2) →
      (∃ w0, request p (.wallet_getCallsStatus bundleId) w0 = (.ok status, w2) ∧
        inSuccessRange status.statusCode = true ∧ anyFailed status.receipts = false) ∨
      (∃ w0 e, (request p (.wallet_getCallsStatus bundleId) w0).1 = .error e ∧
        isUnsupportedMessage e = true ∧ status = unsupportedStatus ∧
        w2 = sleep 1500 (request p (.wallet_getCallsStatus bundleId) w0).2)
  | 0, w, w2, status, h => by simp [waitLoop] at h
  | fuel + 1, w, w2, status, h => by
    unfold waitLoop at h
    split at h
    · simp at h
    · simp only [] at h
      split at h
      · rename_i st hpoll
        simp only [Option.some.injEq, Prod.mk.injEq, Except.ok.injEq] at h
        obtain ⟨h1, h2⟩ := h
        subst h1 h2
        left
        refine ⟨w, ?_⟩
        cases hr : (request p (Rpc.wallet_getCallsStatus bundleId) w).1 with
        | error e => rw [hr] at hpoll; simp [pollTry] at hpoll
        | ok v =>
          rw [hr] at hpoll
          unfold pollTry at hpoll
          simp only [] at hpoll
          split at hpoll
          · rename_i hin
            split at hpoll
            · simp at hpoll
            · rename_i hfail
              simp only [Except.ok.injEq, Option.some.injEq] at hpoll
              subst hpoll
              exact ⟨Prod.ext hr rfl, hin, by simpa using hfail⟩
          · split at hpoll <;> simp at hpoll
      · exact waitLoop_ok_cases p bundleId opts start fuel
          (sleep opts.pollMs (request p (Rpc.wallet_getCallsStatus bundleId) w).2) w2 status h
      · rename_i msg hpoll
        split at h
        · rename_i hun
          simp only [Option.some.injEq, Prod.mk.injEq, Except.ok.injEq] at h
          obtain ⟨h1, h2⟩ := h
          right
          refine ⟨w, msg, ?_, hun, h1.symm, h2.symm⟩
          cases hr : (request p (Rpc.wallet_getCallsStatus bundleId) w).1 with
          | error e =>
            rw [hr] at hpoll
            simp only [pollTry, Except.error.injEq] at hpoll
            rw [hpoll]
          | ok v =>
            rw [hr] at hpoll
            unfold pollTry at hpoll
            simp only [] at hpoll
            split at hpoll
            · split at hpoll
              · simp only [Except.error.injEq] at hpoll
                subst hpoll
                exact absurd hun (by decide)
              · simp at hpoll
            · split at hpoll
              · simp only [Except.error.injEq] at hpoll
                subst hpoll
                exact absurd hun (by decide)
              · simp at hpoll
        · exact waitLoop_ok_cases p bundleId opts start fuel
            (sleep opts.pollMs (request p (Rpc.wallet_getCallsStatus bundleId) w).2) w2 status h

/-- Counting the attempts that did not throw, one attempt at a time. -/
theorem creditedCount_cons (o : AttemptOutcome) (os : List AttemptOutcome) :
    creditedCount (o :: os) = (if o.credited then 1 else 0) + creditedCount os := by
  unfold creditedCount
  rw [List.countP_cons]
  omega

/-- Adding one for each attempt that did not throw, first attempt first. -/
theorem jsAddOne_credited (o : AttemptOutcome) (os : List AttemptOutcome) (x : Nat) :
    jsAddOne^[creditedCount (o :: os)] x
      = jsAddOne^[creditedCount os] (if o.credited then jsAddOne x else x) := by
  rw [creditedCount_cons]
  cases o.credited with
  | true =>
    simp only [if_true]
    rw [Nat.add_comm, Function.iterate_succ_apply]
  | false => simp

/-- The drain loop returns with an empty queue once the fuel exceeds the
queued and arriving taps; the stored counter and `pata` have had one added,
in doubles, for each attempt that did not throw, and the number of attempts
is at least the number of taps queued at the start. -/
theorem drainLoop_effect {σ : Type} (env : Env σ) :
    ∀ (fuel : Nat) (arrivals : List Nat) (w : World σ), w.tapQueue + arrivals.sum < fuel →
      ∃ os w1, drainLoop env fuel arrivals w = some (os, w1) ∧ w1.tapQueue = 0 ∧
        w1.tapSending = w.tapSending ∧
        w1.tapCounter = jsAddOne^[creditedCount os] w.tapCounter ∧
        w1.pata = jsAddOne^[creditedCount os] w.pata ∧
        w.tapQueue ≤ os.length ∧ os.length ≤ w.tapQueue + arrivals.sum
  | 0, _, _, h => by omega
  | fuel + 1, arrivals, w, h => by
    rw [drainLoop]
    by_cases hq : 0 < w.tapQueue
    · simp only [hq, if_true]
      obtain ⟨o, w1, hit, hq1, hs1, hc1, hp1⟩ := tapIteration_effect env (arrivals.headD 0) w
      have hsum : arrivals.headD 0 + arrivals.tail.sum = arrivals.sum := by
        cases arrivals <;> simp
      obtain ⟨os, w2, hd, hq2, hs2, hc2, hp2, hl2, hu2⟩ :=
        drainLoop_effect env fuel arrivals.tail w1 (by omega)
      refine ⟨o :: os, w2, by rw [hit]; simp only [hd], hq2, by rw [hs2, hs1], ?_, ?_, ?_, ?_⟩
      · rw [hc2, hc1, jsAddOne_credited]
      · rw [hp2, hp1, jsAddOne_credited]
      · simp only [List.length_cons]; omega
      · simp only [List.length_cons]; omega
    · simp only [hq, if_false]
      exact ⟨[], w, rfl, by omega, rfl, by simp [creditedCount], by simp [creditedCount],
        by simp; omega, by simp⟩

/-- C1, as stated, fails, in two ways. One tap is queued, the wallet
accepts the bundle and does not implement `wallet_getCallsStatus`: the
drain makes one attempt, whose outcome is `unsupported` and not
`confirmedSuccess`, and `pata` goes from 0 to 1. And one tap is queued with
`pata = 2 ^ 53`, the wallet confirms the bundle: the outcome is
`confirmedSuccess` and `pata` is still `2 ^ 53`, since `pata += 1` is an
addition of doubles. -/
theorem processTapQueue_credits_without_confirmed_success :
    oneTapQueued.pata = 0 ∧
    drainSummary (processTapQueue (plainEnv noStatusWallet) [] oneTapQueued)
      = some ([.unsupported], 1, 1, 0, false) ∧
    confirmedSuccessCount [.unsupported] = 0 ∧
    oneTapAtLimit.pata = 9007199254740992 ∧
    drainSummary (processTapQueue (plainEnv confirmingWallet) [] oneTapAtLimit)
      = some ([.confirmedSuccess], 9007199254740992, 9007199254740992, 0, false) ∧
    confirmedSuccessCount [.confirmedSuccess] = 1 := by
  refine ⟨by decide, by decide, by decide, by decide, by decide, by decide⟩

/-- C1, amended. For every pass of the drain loop: when the submission
throws, when no provider is found for the poller, or when the poller throws,
the outcome is `raised` and `pata` is what it was; when the wallet returns
no bundle id the outcome is `noBundleId`, and when the poller returns a
status it is `confirmedSuccess` for a code in the success range and
`unsupported` otherwise, and in these three cases `pata` is `pata + 1` in
doubles, which is exactly one more while `pata` is below `2 ^ 53`; a status
the poller returns is the wallet's reply with a success code and no failed
receipt, or `{ status: 100 }` after an unsupported-method rejection. Every
call of `processTapQueue` returns, and after it `pata` has had one added, in
doubles, for each attempt that did not throw: when that stays within
`2 ^ 53`, `pata` has grown by exactly the number of such attempts. -/
theorem processTapQueue_reward_delta {σ : Type} (env : Env σ) (arrivals : List Nat)
    (w : World σ) :
    (∀ (arrived : Nat) (w0 : World σ),
      (∀ e w1, walletSendCallsTap env (jsAddOne w0.tapCounter) w0 = (.error e, w1) →
        ∃ w9, tapIteration env arrived w0 = some (.raised e, w9) ∧ w9.pata = w0.pata) ∧
      (∀ res w1 b e, walletSendCallsTap env (jsAddOne w0.tapCounter) w0 = (.ok res, w1) →
        res.bundleId = some b → getProvider env = .error e →
        ∃ w9, tapIteration env arrived w0 = some (.raised e, w9) ∧ w9.pata = w0.pata) ∧
      (∀ res w1 b p e w2, walletSendCallsTap env (jsAddOne w0.tapCounter) w0 = (.ok res, w1) →
        res.bundleId = some b → getProvider env = .ok p →
        waitForCallBundleFinal p b {} w1 = some (.error e, w2) →
        ∃ w9, tapIteration env arrived w0 = some (.raised e, w9) ∧ w9.pata = w0.pata) ∧
      (∀ res w1, walletSendCallsTap env (jsAddOne w0.tapCounter) w0 = (.ok res, w1) →
        res.bundleId = none →
        ∃ w9, tapIteration env arrived w0 = some (.noBundleId, w9) ∧
          w9.pata = jsAddOne w0.pata) ∧
      (∀ res w1 b p status w2,
        walletSendCallsTap env (jsAddOne w0.tapCounter) w0 = (.ok res, w1) →
        res.bundleId = some b → getProvider env = .ok p →
        waitForCallBundleFinal p b {} w1 = some (.ok status, w2) →
        (∃ w9, tapIteration env arrived w0
            = some (if inSuccessRange status.statusCode then .confirmedSuccess
                    else .unsupported, w9) ∧
          w9.pata = jsAddOne w0.pata) ∧
        ((inSuccessRange status.statusCode = true ∧ anyFailed status.receipts = false ∧
            ∃ wq, request p (.wallet_getCallsStatus b) wq = (.ok status, w2)) ∨
          (status = unsupportedStatus ∧ ∃ wq e,
            (request p (.wallet_getCallsStatus b) wq).1 = .error e ∧
            isUnsupportedMessage e = true))) ∧
      (w0.pata < 2 ^ 53 → jsAddOne w0.pata = w0.pata + 1)) ∧
    ∃ os w1, processTapQueue env arrivals w = some (os, w1) ∧
      w1.pata = jsAddOne^[creditedCount os] w.pata ∧
      (w.pata + creditedCount os ≤ 2 ^ 53 → w1.pata = w.pata + creditedCount os) := by
  constructor
  · intro arrived w0
    obtain ⟨hA, hB, hC, hD, hE⟩ := tapIteration_cases env arrived w0
    have hsend := walletSendCallsTap_counters env (jsAddOne w0.tapCounter) w0
    refine ⟨?_, ?_, ?_, ?_, ?_, jsAddOne_of_lt _⟩
    · intro e w1 h
      rw [h] at hsend
      simp only [World.counters, Prod.mk.injEq] at hsend
      exact ⟨_, hA e w1 h, by simp [endPass, sleep, reportError, hsend.2.2.2]⟩
    · intro res w1 b e h hb hp
      rw [h] at hsend
      simp only [World.counters, Prod.mk.injEq] at hsend
      exact ⟨_, hC res w1 b e h hb hp, by simp [endPass, sleep, reportError, hsend.2.2.2]⟩
    · intro res w1 b p e w2 h hb hp hw
      rw [h] at hsend
      have hcnt := waitLoop_counters p b {} w1.now _ w1 _ hw
      simp only [World.counters, Prod.mk.injEq] at hsend hcnt
      exact ⟨_, hD res w1 b p e w2 h hb hp hw,
        by simp [endPass, sleep, reportError, hsend.2.2.2, hcnt.2.2.2]⟩
    · intro res w1 h hb
      rw [h] at hsend
      simp only [World.counters, Prod.mk.injEq] at hsend
      exact ⟨_, hB res w1 h hb, by simp [endPass, sleep, commitTap, hsend.2.2.2]⟩
    · intro res w1 b p status w2 h hb hp hw
      rw [h] at hsend
      have hcnt := waitLoop_counters p b {} w1.now _ w1 _ hw
      simp only [World.counters, Prod.mk.injEq] at hsend hcnt
      refine ⟨⟨_, hE res w1 b p status w2 h hb hp hw,
        by simp [endPass, sleep, commitTap, hsend.2.2.2, hcnt.2.2.2]⟩, ?_⟩
      rcases waitLoop_ok_cases p b {} w1.now _ w1 w2 status hw with
        ⟨wq, h1, h2, h3⟩ | ⟨wq, e, h1, h2, h3, _⟩
      · exact Or.inl ⟨h2, h3, wq, h1⟩
      · exact Or.inr ⟨h3, wq, e, h1, h2⟩
  · have key : ∀ os (w1 : World σ), w1.pata = jsAddOne^[creditedCount os] w.pata →
        (w.pata + creditedCount os ≤ 2 ^ 53 → w1.pata = w.pata + creditedCount os) := by
      intro os w1 h hle
      rw [h, jsAddOne_iterate _ _ hle]
    unfold processTapQueue
    by_cases hs : w.tapSending = true
    · exact ⟨[], w, by simp [hs], by simp [creditedCount], by simp [creditedCount]⟩
    · by_cases hq : w.tapQueue ≤ 0
      · exact ⟨[], w, by simp [hs, hq], by simp [creditedCount], by simp [creditedCount]⟩
      · obtain ⟨os, w1, hd, _, _, _, hp, _, _⟩ :=
          drainLoop_effect env (w.tapQueue + arrivals.sum + 1) arrivals
            { w with tapSending := true } (by simp)
        refine ⟨os, { w1 with tapSending := false }, ?_, hp, key os _ hp⟩
        simp only [hs, hq, if_false, hd]
        simp

/-- C1, instance: one tap is queued and the wallet confirms the bundle on
the first status query: the outcome is `confirmedSuccess` and `pata` is
`jsAddOne 0`, which is 1. -/
theorem processTapQueue_reward_delta_witness :
    (∃ w9, tapIteration (plainEnv confirmingWallet) 0 oneTapQueued
        = some (if inSuccessRange (Reply.callsStatus (some 200) ["0x1"]).statusCode
                then .confirmedSuccess else .unsupported, w9) ∧
      w9.pata = jsAddOne oneTapQueued.pata) ∧
    (oneTapQueued.pata < 2 ^ 53 → jsAddOne oneTapQueued.pata = oneTapQueued.pata + 1) :=
  ⟨(((processTapQueue_reward_delta (plainEnv confirmingWallet) [] oneTapQueued).1
      0 oneTapQueued).2.2.2.2.1
      (.bundle (some "0xb1"))
      (walletSendCallsTap (plainEnv confirmingWallet) 1 oneTapQueued).2
      "0xb1" confirmingWallet (.callsStatus (some 200) ["0x1"])
      (request confirmingWallet (.wallet_getCallsStatus "0xb1")
        (walletSendCallsTap (plainEnv confirmingWallet) 1 oneTapQueued).2).2
      rfl rfl rfl rfl).1,
   ((processTapQueue_reward_delta (plainEnv confirmingWallet) [] oneTapQueued).1
      0 oneTapQueued).2.2.2.2.2⟩

/-! ### The interleaved tap queue -/

theorem isReadyToSend_true : isReadyToSend = true := by decide

/-- A one-element list has its element at index 0 only. -/
theorem getElem?_singleton_some {α : Type} (a b : α) (i : Nat)
    (h : [a][i]? = some b) : i = 0 ∧ a = b := by
  cases i with
  | zero => exact ⟨rfl, by simpa using h⟩
  | succ k => simp at h

/-- Every transition keeps the invariant; a tap adds one to the count. -/
theorem Queue.queueStep_inv (s s1 : Queue.QueueState) (n : Nat) (e : Queue.QueueEvent)
    (hinv : Queue.Inv s n) (h : Queue.step s e = some s1) :
    Queue.Inv s1 (n + Queue.taps [e]) := by
  obtain ⟨q, sending, loops, st, se⟩ := s
  cases e with
  | enqueue =>
    simp only [Queue.step, Option.some.injEq] at h
    subst h
    simp only [Queue.Inv, Queue.enqueueTapTx, Queue.processTapQueue, isReadyToSend_true,
      Queue.taps] at hinv ⊢
    rcases hinv with ⟨h1, h2, h3, h4, h5⟩ | ⟨h1, h2, h3, h4, h5⟩ | ⟨h1, h2, h3, h4, h5⟩
    · subst h1 h2 h3 h4 h5
      right; left
      simp
    · subst h1 h2
      right; left
      simp
      omega
    · subst h1 h2
      right; right
      simp
      omega
  | attemptResumes i =>
    simp only [Queue.step] at h
    split at h
    · simp only [Option.some.injEq] at h
      subst h
      simpa [Queue.taps] using hinv
    · simp at h
  | attemptSettles i threw =>
    simp only [Queue.step] at h
    split at h
    · rename_i hpc
      simp only [Option.some.injEq] at h
      subst h
      simp only [Queue.Inv, Queue.taps] at hinv ⊢
      rcases hinv with ⟨h1, h2, h3, h4, h5⟩ | ⟨h1, h2, h3, h4, h5⟩ | ⟨h1, h2, h3, h4, h5⟩
      · subst h1
        simp at hpc
      · subst h1 h2
        obtain ⟨hi, _⟩ := getElem?_singleton_some _ _ _ hpc
        subst hi
        right; right
        simp
        omega
      · subst h1
        obtain ⟨_, hne⟩ := getElem?_singleton_some _ _ _ hpc
        simp at hne
    · simp at h
  | timerFires i =>
    simp only [Queue.step] at h
    split at h
    · rename_i hpc
      simp only [Option.some.injEq] at h
      subst h
      simp only [Queue.Inv, Queue.taps, Queue.afterSleep] at hinv ⊢
      rcases hinv with ⟨h1, h2, h3, h4, h5⟩ | ⟨h1, h2, h3, h4, h5⟩ | ⟨h1, h2, h3, h4, h5⟩
      · subst h1
        simp at hpc
      · subst h1
        obtain ⟨_, hne⟩ := getElem?_singleton_some _ _ _ hpc
        simp at hne
      · subst h1 h2
        obtain ⟨hi, _⟩ := getElem?_singleton_some _ _ _ hpc
        subst hi
        by_cases hq : 0 < q - 1
        · right; left
          simp [hq]
          omega
        · left
          simp [hq]
          omega
    · simp at h

/-- Every schedule keeps the invariant; its taps are added to the count. -/
theorem Queue.queueRun_inv : ∀ (evs : List Queue.QueueEvent) (s s1 : Queue.QueueState) (n : Nat),
    Queue.Inv s n → Queue.run s evs = some s1 → Queue.Inv s1 (n + Queue.taps evs)
  | [], s, s1, n, hinv, h => by
    simp only [Queue.run, Option.some.injEq] at h
    subst h
    simpa [Queue.taps] using hinv
  | e :: es, s, s1, n, hinv, h => by
    simp only [Queue.run] at h
    split at h
    · simp at h
    · rename_i s2 hstep
      have h2 := Queue.queueRun_inv es s2 s1 _ (Queue.queueStep_inv s s2 n e hinv hstep) h
      have hc : Queue.taps (e :: es) = Queue.taps [e] + Queue.taps es := by
        unfold Queue.taps
        rw [← List.count_append]
        rfl
      rw [hc, ← Nat.add_assoc]
      exact h2


/-- A schedule without taps has no taps. -/
theorem Queue.taps_finish : ∀ k : Nat, Queue.taps (Queue.finish k) = 0
  | 0 => rfl
  | k + 1 => by
    have h := Queue.taps_finish k
    unfold Queue.taps at h ⊢
    simp [Queue.finish, h]

/-- From a state whose single loop is inside an attempt with `k + 1` taps in
the queue, settling each attempt and letting each timer fire ends with no
loop suspended. -/
theorem Queue.run_finish : ∀ (k : Nat) (s : Queue.QueueState),
    s.loops = [.attempting] → s.tapQueue = (k : Int) + 1 →
    ∃ s1, Queue.run s (Queue.finish (k + 1)) = some s1 ∧ s1.loops = []
  | 0, s, hl, hq => by
    obtain ⟨q, sending, loops, st, se⟩ := s
    simp only at hl hq
    subst hl hq
    refine ⟨⟨0, false, [], st, se + 1⟩, ?_, rfl⟩
    simp [Queue.finish, Queue.run, Queue.step, Queue.afterSleep]
  | k + 1, s, hl, hq => by
    obtain ⟨q, sending, loops, st, se⟩ := s
    simp only at hl hq
    subst hl hq
    have hpos : (0 : Int) < (k : Int) + 1 := by omega
    obtain ⟨s1, h1, h2⟩ := Queue.run_finish k
      { tapQueue := (k : Int) + 1, tapSending := sending, loops := [.attempting],
        started := st + 1, settled := se + 1 } rfl rfl
    refine ⟨s1, ?_, h2⟩
    rw [← h1]
    simp [Queue.finish, Queue.run, Queue.step, Queue.afterSleep, hpos]

/-- C4: in every state reached from the idle queue by a schedule of taps,
resumptions, settled attempts and timers, at most one drain loop is
suspended, and one is exactly when `tapSending` is true; the attempts begun
exceed the attempts settled by at most one (an attempt begins only after
the one before has settled) and never exceed the taps made; while a loop
is suspended a further step is possible, and letting each attempt settle
and each timer fire, with no further tap, ends with no loop suspended;
and whenever no loop is suspended, the attempts begun and settled both equal
the number of taps, `tapQueue = 0` and `tapSending = false`. -/
theorem tapQueue_one_attempt_per_tap (evs : List Queue.QueueEvent) (s : Queue.QueueState)
    (h : Queue.run Queue.idle evs = some s) :
    s.loops.length ≤ 1 ∧ (s.tapSending = true ↔ s.loops.length = 1) ∧
    s.started ≤ s.settled + 1 ∧ (s.started = s.settled + 1 ↔ s.loops = [.attempting]) ∧
    s.started ≤ Queue.taps evs ∧
    (∃ s1, Queue.taps (Queue.finishFrom s) = 0 ∧
      Queue.run s (Queue.finishFrom s) = some s1 ∧ s1.loops = []) ∧
    (s.loops = [] → s.started = Queue.taps evs ∧ s.settled = Queue.taps evs ∧
      s.tapQueue = 0 ∧ s.tapSending = false) := by
  have hinv := Queue.queueRun_inv evs Queue.idle s 0 (Or.inl ⟨rfl, rfl, rfl, rfl, rfl⟩) h
  rw [Nat.zero_add] at hinv
  rcases hinv with ⟨h1, h2, h3, h4, h5⟩ | ⟨h1, h2, h3, h4, h5⟩ | ⟨h1, h2, h3, h4, h5⟩
  · refine ⟨by simp [h1], by simp [h1, h2], by omega, ?_, by omega, ?_, ?_⟩
    · simp [h1]; omega
    · exact ⟨s, by simp [Queue.finishFrom, h1, Queue.taps], by simp [Queue.finishFrom, h1, Queue.run], h1⟩
    · intro _
      exact ⟨h4, h5, h3, h2⟩
  · refine ⟨by simp [h1], by simp [h1, h2], by omega, by simp [h1, h4], by omega, ?_, ?_⟩
    · obtain ⟨k, hk⟩ : ∃ k : Nat, s.tapQueue = (k : Int) + 1 := ⟨(s.tapQueue - 1).toNat, by omega⟩
      have hn : s.tapQueue.toNat = k + 1 := by omega
      obtain ⟨s1, hr, hl⟩ := Queue.run_finish k s h1 hk
      refine ⟨s1, ?_, ?_, hl⟩
      · simp only [Queue.finishFrom, h1]
        exact Queue.taps_finish _
      · simp only [Queue.finishFrom, h1, hn]
        exact hr
    · intro hl
      simp [h1] at hl
  · refine ⟨by simp [h1], by simp [h1, h2], by omega, ?_, by omega, ?_, ?_⟩
    · simp [h1]; omega
    · by_cases hq : 0 < s.tapQueue - 1
      · obtain ⟨k, hk⟩ : ∃ k : Nat, s.tapQueue - 1 = (k : Int) + 1 :=
          ⟨(s.tapQueue - 2).toNat, by omega⟩
        have hn : (s.tapQueue - 1).toNat = k + 1 := by omega
        obtain ⟨s1, hr, hl⟩ := Queue.run_finish k
          { s with tapQueue := s.tapQueue - 1, loops := [.attempting], started := s.started + 1 }
          rfl hk
        refine ⟨s1, ?_, ?_, hl⟩
        · simp only [Queue.finishFrom, h1, hn]
          have := Queue.taps_finish (k + 1)
          unfold Queue.taps at this ⊢
          simpa using this
        · simp only [Queue.finishFrom, h1, hn]
          rw [← hr]
          simp [Queue.run, Queue.step, Queue.afterSleep, h1, hq]
      · have hn : (s.tapQueue - 1).toNat = 0 := by omega
        refine ⟨{ s with tapQueue := s.tapQueue - 1, loops := [], tapSending := false }, ?_, ?_, rfl⟩
        · simp [Queue.finishFrom, h1, hn, Queue.finish, Queue.taps]
        · simp [Queue.finishFrom, h1, hn, Queue.finish, Queue.run, Queue.step,
            Queue.afterSleep, hq]
    · intro hl
      simp [h1] at hl

/-- C4, instance: three taps interleaved with the drain loop; three attempts
are begun and settled, and the queue ends idle. -/
theorem tapQueue_one_attempt_per_tap_witness :
    Queue.run Queue.idle Queue.threeTaps
        = some { tapQueue := 0, tapSending := false, loops := [], started := 3, settled := 3 } ∧
      (3 = Queue.taps Queue.threeTaps ∧ 3 = Queue.taps Queue.threeTaps ∧
        (0 : Int) = 0 ∧ false = false) :=
  ⟨by decide,
    (tapQueue_one_attempt_per_tap Queue.threeTaps
      { tapQueue := 0, tapSending := false, loops := [], started := 3, settled := 3 }
      (by decide)).2.2.2.2.2.2 rfl⟩


/-! ### `ensureConnected`, interleaved -/

/-- A call that has settled does not await a promise. -/
theorem Connect.settledPc_ne_awaiting (res : Except Err String) (m : Nat) :
    Connect.settledPc res ≠ .awaiting m := by
  cases res <;> simp [Connect.settledPc]

/-- Every transition keeps the invariant. -/
theorem Connect.connStep_inv (s s1 : Connect.ConnState) (e : Connect.ConnEvent)
    (hinv : Connect.Inv s) (h : Connect.step s e = some s1) : Connect.Inv s1 := by
  obtain ⟨account, marker, callers, pending, sent⟩ := s
  cases e with
  | call =>
    simp only [Connect.step, Option.some.injEq] at h
    subst h
    simp only [Connect.Inv, Connect.call] at hinv ⊢
    cases account with
    | none =>
      rcases hinv with ⟨h1, h2, h3⟩ | ⟨n, h1, h2, h3⟩
      · left
        refine ⟨h1, h2, ?_⟩
        intro c hc m
        rcases List.mem_append.1 hc with hc | hc
        · exact h3 c hc m
        · simp at hc; simp [hc]
      · right
        refine ⟨n, h1, h2, ?_⟩
        intro c hc m hm
        rcases List.mem_append.1 hc with hc | hc
        · exact h3 c hc m hm
        · simp at hc; simp [hc] at hm
    | some a =>
      rcases hinv with ⟨h1, h2, h3⟩ | ⟨n, h1, h2, h3⟩
      · left
        refine ⟨h1, h2, ?_⟩
        intro c hc m
        rcases List.mem_append.1 hc with hc | hc
        · exact h3 c hc m
        · simp at hc; simp [hc]
      · right
        refine ⟨n, h1, h2, ?_⟩
        intro c hc m hm
        rcases List.mem_append.1 hc with hc | hc
        · exact h3 c hc m hm
        · simp at hc; simp [hc] at hm
  | probeSettles i r =>
    simp only [Connect.step] at h
    split at h
    · simp only [Option.some.injEq] at h
      subst h
      simp only [Connect.Inv, Connect.afterProbe] at hinv ⊢
      cases hp : Connect.probed r with
      | some addr =>
        simp only []
        rcases hinv with ⟨h1, h2, h3⟩ | ⟨n, h1, h2, h3⟩
        · left
          refine ⟨h1, h2, ?_⟩
          intro c hc m
          rcases List.mem_or_eq_of_mem_set hc with hc | hc
          · exact h3 c hc m
          · simp [hc]
        · right
          refine ⟨n, h1, h2, ?_⟩
          intro c hc m hm
          rcases List.mem_or_eq_of_mem_set hc with hc | hc
          · exact h3 c hc m hm
          · simp [hc] at hm
      | none =>
        simp only []
        rcases hinv with ⟨h1, h2, h3⟩ | ⟨n, h1, h2, h3⟩
        · subst h1 h2
          right
          refine ⟨sent, rfl, rfl, ?_⟩
          intro c hc m hm
          rcases List.mem_or_eq_of_mem_set hc with hc | hc
          · exact absurd hm (h3 c hc m)
          · rw [hc] at hm
            simpa using hm.symm
        · subst h1 h2
          right
          refine ⟨n, rfl, rfl, ?_⟩
          intro c hc m hm
          rcases List.mem_or_eq_of_mem_set hc with hc | hc
          · exact h3 c hc m hm
          · rw [hc] at hm
            simpa using hm.symm
    · simp at h
  | connectSettles n r =>
    simp only [Connect.step] at h
    split at h
    · rename_i hmem
      simp only [Option.some.injEq] at h
      subst h
      simp only [Connect.Inv, Connect.afterConnect] at hinv ⊢
      rcases hinv with ⟨h1, h2, h3⟩ | ⟨n1, h1, h2, h3⟩
      · subst h2
        simp at hmem
      · subst h1 h2
        have hn : n = n1 := by simpa using hmem
        subst hn
        left
        refine ⟨trivial, by simp, ?_⟩
        intro c hc m
        obtain ⟨c0, hc0, hce⟩ := List.mem_map.1 hc
        by_cases hw : c0 = .awaiting n
        · rw [if_pos hw] at hce
          rw [← hce]
          exact Connect.settledPc_ne_awaiting _ m
        · rw [if_neg hw] at hce
          rw [← hce]
          intro hm
          exact hw (by rw [hm, h3 c0 hc0 m hm])
    · simp at h

/-- Every schedule keeps the invariant. -/
theorem Connect.connRun_inv : ∀ (evs : List Connect.ConnEvent) (s s1 : Connect.ConnState),
    Connect.Inv s → Connect.run s evs = some s1 → Connect.Inv s1
  | [], s, s1, hinv, h => by
    simp only [Connect.run, Option.some.injEq] at h
    subst h
    exact hinv
  | e :: es, s, s1, hinv, h => by
    simp only [Connect.run] at h
    split at h
    · simp at h
    · rename_i s2 hstep
      exact Connect.connRun_inv es s2 s1 (Connect.connStep_inv s s2 e hinv hstep) h


/-- C8, as stated, fails: the second call of `ensureConnected` is made while
the `eth_requestAccounts` of the first is in flight (marker set, one request
unanswered); the user declines, the marker is cleared, and when the probe
of the second call then comes back empty that call sends a second
`eth_requestAccounts`. Two interactive requests are sent, and the two calls
do not share a result: the first failed, the second awaits a new promise. -/
theorem ensureConnected_late_probe_sends_second_request :
    Connect.run Connect.init (Connect.lateProbe.take 3)
      = some { account := none, connectInFlight := some 0,
               callers := [.awaiting 0, .probing], pending := [0], sent := 1 } ∧
    Connect.run Connect.init Connect.lateProbe
      = some { account := none, connectInFlight := some 1,
               callers := [.rejected "User rejected the request", .awaiting 1],
               pending := [1], sent := 2 } := by
  refine ⟨by decide, by decide⟩

/-- C8, amended: in every state reached by interleaved calls of
`ensureConnected`, at most one `eth_requestAccounts` sent by it is
unanswered, and the marker is set exactly when one is; a call whose probe
yields no address while the marker is set sends no request and awaits the
promise in flight; when the request in flight settles, with an address or
with an error, the marker is cleared, no request is left unanswered, and
every call awaiting a promise gets the same result; and a call whose probe
yields no address while the marker is clear sends a fresh
`eth_requestAccounts`. -/
theorem ensureConnected_shares_connect_in_flight (evs : List Connect.ConnEvent)
    (s : Connect.ConnState) (h : Connect.run Connect.init evs = some s) :
    s.pending.length ≤ 1 ∧ (s.connectInFlight = none ↔ s.pending = []) ∧
    (∀ (n i : Nat) r, s.connectInFlight = some n → s.callers[i]? = some Connect.CallerPc.probing →
      Connect.probed r = none →
      ∃ s1, Connect.step s (.probeSettles i r) = some s1 ∧ s1.sent = s.sent ∧
        s1.pending = s.pending ∧ s1.callers[i]? = some (Connect.CallerPc.awaiting n)) ∧
    (∀ n r, n ∈ s.pending →
      ∃ s1, Connect.step s (.connectSettles n r) = some s1 ∧ s1.connectInFlight = none ∧
        s1.pending = [] ∧ s1.sent = s.sent ∧
        ∀ (i m : Nat), s.callers[i]? = some (Connect.CallerPc.awaiting m) →
          s1.callers[i]? = some (Connect.settledPc (Connect.connectResult r))) ∧
    (∀ (i : Nat) r, s.connectInFlight = none → s.callers[i]? = some Connect.CallerPc.probing →
      Connect.probed r = none →
      ∃ s1, Connect.step s (.probeSettles i r) = some s1 ∧ s1.sent = s.sent + 1 ∧
        s1.connectInFlight = some s.sent ∧ s1.pending = [s.sent]) := by
  have hinv := Connect.connRun_inv evs Connect.init s (Or.inl ⟨rfl, rfl, by simp [Connect.init]⟩) h
  obtain ⟨account, marker, callers, pending, sent⟩ := s
  simp only [Connect.Inv] at hinv
  simp only []
  refine ⟨?_, ?_, ?_, ?_, ?_⟩
  · rcases hinv with ⟨_, h2, _⟩ | ⟨n, _, h2, _⟩ <;> simp [h2]
  · rcases hinv with ⟨h1, h2, _⟩ | ⟨n, h1, h2, _⟩ <;> simp [h1, h2]
  · intro n i r hm hi hp
    have hlt : i < callers.length := by
      rcases List.getElem?_eq_some_iff.1 hi with ⟨hlt, _⟩
      exact hlt
    refine ⟨Connect.afterProbe i r ⟨account, marker, callers, pending, sent⟩, ?_, ?_, ?_, ?_⟩
    · simp only [Connect.step, hi, if_true]
    · simp [Connect.afterProbe, hp, hm]
    · simp [Connect.afterProbe, hp, hm]
    · simp [Connect.afterProbe, hp, hm, hlt]
  · intro n r hn
    rcases hinv with ⟨_, h2, _⟩ | ⟨n1, h1, h2, h3⟩
    · simp [h2] at hn
    · have hnn : n = n1 := by simpa [h2] using hn
      subst hnn
      refine ⟨Connect.afterConnect n r ⟨account, marker, callers, pending, sent⟩, ?_, rfl, ?_,
        rfl, ?_⟩
      · simp only [Connect.step, hn, if_true]
      · simp [Connect.afterConnect, h2]
      intro i m hi
      have hmem : Connect.CallerPc.awaiting m ∈ callers := List.getElem?_mem hi
      have hm : m = n := h3 _ hmem m rfl
      subst hm
      simp [Connect.afterConnect, hi]
  · intro i r hm hi hp
    have hlt : i < callers.length := by
      rcases List.getElem?_eq_some_iff.1 hi with ⟨hlt, _⟩
      exact hlt
    rcases hinv with ⟨_, h2, _⟩ | ⟨n1, h1, _, _⟩
    · refine ⟨Connect.afterProbe i r ⟨account, marker, callers, pending, sent⟩, ?_, ?_, ?_, ?_⟩
      · simp only [Connect.step, hi, if_true]
      · simp [Connect.afterProbe, hp, hm]
      · simp [Connect.afterProbe, hp, hm]
      · simp [Connect.afterProbe, hp, hm, h2]
    · rw [hm] at h1
      simp at h1

/-- C8, instance: two calls find no account, the first opens the prompt and
the second, whose probe failed, joins it without a request of its own;
when the user picks `0xA11ce` both resolve with it and the marker is clear. -/
theorem ensureConnected_shares_connect_in_flight_witness :
    ∃ s1, Connect.step
        { account := none, connectInFlight := some 0, callers := [.awaiting 0, .awaiting 0],
          pending := [0], sent := 1 }
        (.connectSettles 0 (.ok (.accounts ["0xA11ce"]))) = some s1 ∧
      s1.connectInFlight = none ∧ s1.pending = [] ∧ s1.sent = 1 ∧
      ∀ (i m : Nat), ([.awaiting 0, .awaiting 0] : List Connect.CallerPc)[i]? = some (Connect.CallerPc.awaiting m) →
        s1.callers[i]? = some (Connect.CallerPc.resolved "0xA11ce") :=
  (ensureConnected_shares_connect_in_flight Connect.sharedPrompt
    { account := none, connectInFlight := some 0, callers := [.awaiting 0, .awaiting 0],
      pending := [0], sent := 1 } (by decide)).2.2.2.1 0 (.ok (.accounts ["0xA11ce"]))
    (by decide)


/-! ### The interactive requests of the whole page -/

/-- C9, evaluated on the code: a tap opens the connect prompt through
`ensureConnected` (marker set, one `eth_requestAccounts` unanswered); the
earn flow then sends a second `eth_requestAccounts` from
`walletSendCallsUsdc`, which does not look at the marker. Two interactive
connect requests are outstanding. -/
theorem walletSendCallsUsdc_second_connect_request_outstanding :
    (System.run System.init (System.tapThenEarn.take 2)).map
        (fun s => (s.conn.connectInFlight, System.outstandingConnect s)) = some (some 0, 1) ∧
    (System.run System.init System.tapThenEarn).map
        (fun s => (s.conn.connectInFlight, System.outstandingConnect s)) = some (some 0, 2) := by
  refine ⟨by decide, by decide⟩


/-- Ending the only body clears the marker and the list. -/
theorem System.bodyEnds_inv (s : System.SysState) (n : Nat) (pc : System.SwitchPc)
    (h : s.bodies = [(n, pc)]) : System.SwitchInv (System.bodyEnds n s) := by
  left
  simp [System.bodyEnds, h]

/-- Moving the only body keeps the marker and one body. -/
theorem System.bodyMoves_inv (s : System.SysState) (n : Nat) (pc pc1 : System.SwitchPc)
    (hm : s.switchInFlight = some n) (h : s.bodies = [(n, pc)]) :
    System.SwitchInv (System.bodyMoves n pc1 s) := by
  right
  exact ⟨n, pc1, hm, by simp [System.bodyMoves, h]⟩

/-- Every transition of the page keeps the invariants of both guards. -/
theorem System.sysStep_inv (s s1 : System.SysState) (e : System.SysEvent)
    (hinv : System.SwitchInv s ∧ Connect.Inv s.conn) (h : System.step s e = some s1) :
    System.SwitchInv s1 ∧ Connect.Inv s1.conn := by
  obtain ⟨hsw, hco⟩ := hinv
  cases e with
  | tapConnect ev =>
    simp only [System.step] at h
    split at h
    · rename_i c hc
      simp only [Option.some.injEq] at h
      subst h
      exact ⟨hsw, Connect.connStep_inv s.conn c ev hco hc⟩
    · simp at h
  | usdcRequestsAccounts =>
    simp only [System.step, Option.some.injEq] at h
    subst h
    exact ⟨hsw, hco⟩
  | usdcAccountsSettle r =>
    simp only [System.step] at h
    split at h
    · simp only [Option.some.injEq] at h
      subst h
      exact ⟨hsw, hco⟩
    · simp at h
  | ensureBaseMainnetCall =>
    simp only [System.step, Option.some.injEq] at h
    subst h
    refine ⟨?_, ?_⟩
    · rcases hsw with ⟨h1, h2⟩ | ⟨n, pc, h1, h2⟩
      · right
        exact ⟨s.created, .readingChain, by simp [System.ensureBaseMainnetCall, h1],
          by simp [System.ensureBaseMainnetCall, h1, h2]⟩
      · right
        exact ⟨n, pc, by simp [System.ensureBaseMainnetCall, h1],
          by simp [System.ensureBaseMainnetCall, h1, h2]⟩
    · unfold System.ensureBaseMainnetCall
      split <;> exact hco
  | chainIdSettles n r =>
    rcases hsw with ⟨h1, h2⟩ | ⟨n1, pc, h1, h2⟩
    · simp [System.step, h2] at h
    · simp only [System.step, h2, List.mem_singleton, Prod.mk.injEq] at h
      have hco1 : ∀ pc0, Connect.Inv (System.afterChainId n1 pc0 r s).conn := by
        intro pc0
        unfold System.afterChainId
        split
        · split <;> exact hco
        · exact hco
      have hsw1 : ∀ pc0, System.SwitchInv (System.afterChainId n1 pc0 r s) := by
        intro pc0
        unfold System.afterChainId
        split
        · split
          · exact System.bodyEnds_inv s n1 pc h2
          · exact System.bodyMoves_inv s n1 pc _ h1 h2
        · exact System.bodyEnds_inv s n1 pc h2
      split at h
      · rename_i hn
        obtain ⟨hn, _⟩ := hn
        subst hn
        simp only [Option.some.injEq] at h
        subst h
        exact ⟨hsw1 _, hco1 _⟩
      · split at h
        · rename_i hn
          obtain ⟨hn, _⟩ := hn
          subst hn
          simp only [Option.some.injEq] at h
          subst h
          exact ⟨hsw1 _, hco1 _⟩
        · simp at h
  | switchSettles n r =>
    rcases hsw with ⟨h1, h2⟩ | ⟨n1, pc, h1, h2⟩
    · simp [System.step, h2] at h
    · simp only [System.step, h2, List.mem_singleton, Prod.mk.injEq] at h
      split at h
      · rename_i hn
        obtain ⟨hn, _⟩ := hn
        subst hn
        simp only [Option.some.injEq] at h
        subst h
        unfold System.afterSwitch
        split
        · exact ⟨System.bodyEnds_inv s n pc h2, hco⟩
        · exact ⟨System.bodyMoves_inv s n pc _ h1 h2, hco⟩
      · simp at h

/-- Every schedule of the page keeps the invariants of both guards. -/
theorem System.sysRun_inv : ∀ (evs : List System.SysEvent) (s s1 : System.SysState),
    System.SwitchInv s ∧ Connect.Inv s.conn → System.run s evs = some s1 →
    System.SwitchInv s1 ∧ Connect.Inv s1.conn
  | [], s, s1, hinv, h => by
    simp only [System.run, Option.some.injEq] at h
    subst h
    exact hinv
  | e :: es, s, s1, hinv, h => by
    simp only [System.run] at h
    split at h
    · simp at h
    · rename_i s2 hstep
      exact System.sysRun_inv es s2 s1 (System.sysStep_inv s s2 e hinv hstep) h

/-- In every state the page reaches, at most one `wallet_switchEthereumChain`
is unanswered, at most one body of `ensureBaseMainnet` runs, and at most one
`eth_requestAccounts` sent by `ensureConnected` is unanswered. -/
theorem System.guarded_requests_at_most_one (evs : List System.SysEvent)
    (s : System.SysState) (h : System.run System.init evs = some s) :
    System.outstandingSwitch s ≤ 1 ∧ s.bodies.length ≤ 1 ∧ s.conn.pending.length ≤ 1 := by
  obtain ⟨hsw, hco⟩ := System.sysRun_inv evs System.init s
    ⟨Or.inl ⟨rfl, rfl⟩, Or.inl ⟨rfl, rfl, by simp [System.init, Connect.init]⟩⟩ h
  have hb : s.bodies.length ≤ 1 := by
    rcases hsw with ⟨_, h2⟩ | ⟨n, pc, _, h2⟩ <;> simp [h2]
  refine ⟨?_, hb, ?_⟩
  · unfold System.outstandingSwitch
    exact le_trans (List.length_filter_le _ _) hb
  · rcases hco with ⟨_, h2, _⟩ | ⟨n, _, h2, _⟩ <;> simp [h2]


/-! ### The drain loop goes on after every attempt -/

/-- Whatever the outcome of a pass, the loop goes on with the world the pass
left: the outcome of the pass is followed by the outcomes of the drain from
that world, which makes at least as many attempts as taps are then queued. -/
theorem drainLoop_continues {σ : Type} (env : Env σ) (fuel : Nat) (arrivals : List Nat)
    (w w1 : World σ) (o : AttemptOutcome) (hq : 0 < w.tapQueue)
    (hf : w.tapQueue + arrivals.sum < fuel + 1)
    (hit : tapIteration env (arrivals.headD 0) w = some (o, w1)) :
    ∃ os w2, drainLoop env (fuel + 1) arrivals w = some (o :: os, w2) ∧
      drainLoop env fuel arrivals.tail w1 = some (os, w2) ∧ w1.tapQueue ≤ os.length := by
  obtain ⟨o', w1', hit', hq1, _, _, _⟩ := tapIteration_effect env (arrivals.headD 0) w
  rw [hit] at hit'
  simp only [Option.some.injEq, Prod.mk.injEq] at hit'
  obtain ⟨ho, hw⟩ := hit'
  subst ho hw
  have hsum : arrivals.headD 0 + arrivals.tail.sum = arrivals.sum := by
    cases arrivals <;> simp
  obtain ⟨os, w2, hd, _, _, _, _, hl, _⟩ :=
    drainLoop_effect env fuel arrivals.tail w1 (by omega)
  refine ⟨os, w2, ?_, hd, hl⟩
  rw [drainLoop]
  simp only [hq, if_true, hit, hd]

/-- C11, as stated, fails: one tap is queued with
`tapCounter = pata = 2 ^ 53`, the wallet accepts the bundle and rejects the
status query with "Method not found". The pass has outcome `unsupported`,
yet the stored counter and `pata` are still `2 ^ 53`: no unit of reward is
credited, both additions being additions of doubles. -/
theorem unsupported_status_query_at_limit_credits_nothing :
    passSummary (tapIteration (plainEnv noStatusWallet) 0 oneTapAtLimit)
      = some (.unsupported, 9007199254740992, 9007199254740992) ∧
    oneTapAtLimit.tapCounter = 9007199254740992 ∧ oneTapAtLimit.pata = 9007199254740992 := by
  refine ⟨by decide, by decide, by decide⟩

/-- C11, amended: at any pass of the poller that sends its status query (the
timeout not yet exceeded), a rejection whose message contains "method not
found", "unsupported" or "does not exist" in any letter case makes the
poller return `{ status: 100 }` after `sleep(1500)`, having sent that one
query and no other; and a pass of the drain loop whose poller returned so
has outcome `unsupported`, stores the next counter and adds one to `pata`,
both in doubles, which is exactly one more while they are below `2 ^ 53`,
takes the tap off the queue, and is followed by the drain of the taps left. -/
theorem unsupported_status_query_counts_as_success {σ : Type} (env : Env σ) (p : Provider σ) :
    (∀ (bundleId : String) (opts : WaitOptions) (start fuel : Nat) (w : World σ) (e : Err),
      ¬ (w.now - start > opts.timeoutMs) →
      (request p (.wallet_getCallsStatus bundleId) w).1 = .error e →
      (includesLower e "method not found" = true ∨ includesLower e "unsupported" = true ∨
        includesLower e "does not exist" = true) →
      waitLoop p bundleId opts start (fuel + 1) w
        = some (.ok unsupportedStatus,
            sleep 1500 (request p (.wallet_getCallsStatus bundleId) w).2) ∧
      (sleep 1500 (request p (.wallet_getCallsStatus bundleId) w).2).log
        = w.log ++ [.wallet_getCallsStatus bundleId]) ∧
    (∀ (arrived : Nat) (w w1 w2 : World σ) (res : Reply) (bundleId : String),
      getProvider env = .ok p →
      walletSendCallsTap env (jsAddOne w.tapCounter) w = (.ok res, w1) →
      res.bundleId = some bundleId →
      waitForCallBundleFinal p bundleId {} w1 = some (.ok unsupportedStatus, w2) →
      ∃ w3, tapIteration env arrived w = some (.unsupported, w3) ∧
        w3.tapCounter = jsAddOne w.tapCounter ∧ w3.pata = jsAddOne w.pata ∧
        (w.tapCounter < 2 ^ 53 → w3.tapCounter = w.tapCounter + 1) ∧
        (w.pata < 2 ^ 53 → w3.pata = w.pata + 1) ∧
        w3.tapQueue = w.tapQueue + arrived - 1) ∧
    (∀ (fuel : Nat) (arrivals : List Nat) (w w3 : World σ),
      0 < w.tapQueue → w.tapQueue + arrivals.sum < fuel + 1 →
      tapIteration env (arrivals.headD 0) w = some (.unsupported, w3) →
      ∃ os w4, drainLoop env (fuel + 1) arrivals w = some (.unsupported :: os, w4) ∧
        drainLoop env fuel arrivals.tail w3 = some (os, w4) ∧ w3.tapQueue ≤ os.length) := by
  refine ⟨?_, ?_, ?_⟩
  · intro bundleId opts start fuel w e hto hreq hmsg
    have hun : isUnsupportedMessage e = true := by
      unfold isUnsupportedMessage
      rcases hmsg with h | h | h <;> simp [h]
    refine ⟨?_, rfl⟩
    rw [waitLoop]
    simp only [hto, if_false]
    simp only [hreq, pollTry, hun, if_true, unsupportedStatus]
  · intro arrived w w1 w2 res bundleId hprov hsend hb hwait
    have hc1 := walletSendCallsTap_counters env (jsAddOne w.tapCounter) w
    rw [hsend] at hc1
    have hc2 := waitLoop_counters p bundleId {} w1.now _ w1 _ hwait
    simp only [World.counters, Prod.mk.injEq] at hc1 hc2
    obtain ⟨hq1, _, ht1, hp1⟩ := hc1
    obtain ⟨hq2, _, ht2, hp2⟩ := hc2
    have hit := (tapIteration_cases env arrived w).2.2.2.2 res w1 bundleId p
      unsupportedStatus w2 hsend hb hprov hwait
    have hnot : inSuccessRange unsupportedStatus.statusCode = false := by decide
    simp only [hnot, Bool.false_eq_true, if_false] at hit
    have hpata : (endPass arrived (commitTap (jsAddOne w.tapCounter) w2)).pata
        = jsAddOne w.pata := by
      simp [endPass, sleep, commitTap, hp2, hp1]
    refine ⟨_, hit, rfl, hpata, ?_, ?_, ?_⟩
    · intro hlt
      exact jsAddOne_of_lt _ hlt
    · intro hlt
      rw [hpata]
      exact jsAddOne_of_lt _ hlt
    · simp only [endPass, sleep, commitTap, hq2, hq1]
  · intro fuel arrivals w w3 hq hf hit
    exact drainLoop_continues env fuel arrivals w w3 _ hq hf hit

/-- C11, instance: one tap is queued and the wallet answers the status query
with "Method not found": the pass has outcome `unsupported`, the counter and
`pata` go from 0 to 1 and the queue is empty. -/
theorem unsupported_status_query_counts_as_success_witness :
    ∃ w3, tapIteration (plainEnv noStatusWallet) 0 oneTapQueued = some (.unsupported, w3) ∧
      w3.tapCounter = jsAddOne oneTapQueued.tapCounter ∧ w3.pata = jsAddOne oneTapQueued.pata ∧
      (oneTapQueued.tapCounter < 2 ^ 53 → w3.tapCounter = oneTapQueued.tapCounter + 1) ∧
      (oneTapQueued.pata < 2 ^ 53 → w3.pata = oneTapQueued.pata + 1) ∧
      w3.tapQueue = oneTapQueued.tapQueue + 0 - 1 :=
  (unsupported_status_query_counts_as_success (plainEnv noStatusWallet) noStatusWallet).2.1
    0 oneTapQueued
    (walletSendCallsTap (plainEnv noStatusWallet) 1 oneTapQueued).2
    (sleep 1500 (request noStatusWallet (.wallet_getCallsStatus "0xb1")
      (walletSendCallsTap (plainEnv noStatusWallet) 1 oneTapQueued).2).2)
    (.bundle (some "0xb1")) "0xb1" rfl rfl rfl
    (((unsupported_status_query_counts_as_success (plainEnv noStatusWallet) noStatusWallet).1
      "0xb1" {} _ _ _ "Method not found" (by decide) rfl (Or.inl (by decide))).1)

/-- C12, as stated, fails: one tap is queued with `tapCounter = pata = 2 ^ 53`
and the wallet confirms the bundle on the first status query. The pass is a
successful one, outcome `confirmedSuccess`, yet the stored counter and
`pata` are still `2 ^ 53` after it: neither has advanced by one, both
additions being additions of doubles. -/
theorem successful_pass_at_limit_advances_nothing :
    passSummary (tapIteration (plainEnv confirmingWallet) 0 oneTapAtLimit)
      = some (.confirmedSuccess, 9007199254740992, 9007199254740992) ∧
    oneTapAtLimit.tapCounter = 9007199254740992 ∧ oneTapAtLimit.pata = 9007199254740992 := by
  refine ⟨by decide, by decide, by decide⟩

/-- C12, amended. Every pass of the drain loop returns and takes exactly one
tap off the queue (after adding the taps that arrived during the pass);
when its attempt threw, the stored counter and `pata` are what they were
before the pass; when it did not throw, both have had one added in doubles,
which is exactly one more while they are below `2 ^ 53`; in either case the
loop goes on: the outcome of the pass is followed by the drain from the
world the pass left, which attempts every tap still queued. The attempt
throws, with that error, when no provider is found, when `ensureConnected`
fails, when `ensureBaseMainnet` fails, when the submission fails in any
other way (a rejected send), when no provider is found for the poller, and
when the poller throws, which it does with the timeout error only; it does
not throw when the wallet returns no bundle id or the poller returns. -/
theorem tapIteration_failure_keeps_counter_and_reward {σ : Type} (env : Env σ) (fuel : Nat)
    (arrivals : List Nat) (w : World σ) (hq : 0 < w.tapQueue)
    (hf : w.tapQueue + arrivals.sum < fuel + 1) :
    (∃ o w1 os w2, tapIteration env (arrivals.headD 0) w = some (o, w1) ∧
      w1.tapQueue + 1 = w.tapQueue + arrivals.headD 0 ∧
      ((∃ e, o = .raised e) → w1.tapCounter = w.tapCounter ∧ w1.pata = w.pata) ∧
      ((∀ e, o ≠ .raised e) →
        w1.tapCounter = jsAddOne w.tapCounter ∧ w1.pata = jsAddOne w.pata ∧
        (w.tapCounter < 2 ^ 53 → w1.tapCounter = w.tapCounter + 1) ∧
        (w.pata < 2 ^ 53 → w1.pata = w.pata + 1)) ∧
      drainLoop env (fuel + 1) arrivals w = some (o :: os, w2) ∧
      drainLoop env fuel arrivals.tail w1 = some (os, w2) ∧ w1.tapQueue ≤ os.length) ∧
    (∀ e, getProvider env = .error e →
      ∃ w1, tapIteration env (arrivals.headD 0) w = some (.raised e, w1)) ∧
    (∀ p e, getProvider env = .ok p → (ensureConnected p w).1 = .error e →
      ∃ w1, tapIteration env (arrivals.headD 0) w = some (.raised e, w1)) ∧
    (∀ p a e, getProvider env = .ok p → (ensureConnected p w).1 = .ok a →
      (ensureBaseMainnet p (ensureConnected p w).2).1 = .error e →
      ∃ w1, tapIteration env (arrivals.headD 0) w = some (.raised e, w1)) ∧
    (∀ e w0, walletSendCallsTap env (jsAddOne w.tapCounter) w = (.error e, w0) →
      ∃ w1, tapIteration env (arrivals.headD 0) w = some (.raised e, w1)) ∧
    (∀ res w0 b e, walletSendCallsTap env (jsAddOne w.tapCounter) w = (.ok res, w0) →
      res.bundleId = some b → getProvider env = .error e →
      ∃ w1, tapIteration env (arrivals.headD 0) w = some (.raised e, w1)) ∧
    (∀ res w0 b p e w2, walletSendCallsTap env (jsAddOne w.tapCounter) w = (.ok res, w0) →
      res.bundleId = some b → getProvider env = .ok p →
      waitForCallBundleFinal p b {} w0 = some (.error e, w2) →
      e = pendingTooLong ∧
      ∃ w1, tapIteration env (arrivals.headD 0) w = some (.raised e, w1)) ∧
    (∀ res w0, walletSendCallsTap env (jsAddOne w.tapCounter) w = (.ok res, w0) →
      res.bundleId = none →
      ∃ w1, tapIteration env (arrivals.headD 0) w = some (.noBundleId, w1)) ∧
    (∀ res w0 b p status w2, walletSendCallsTap env (jsAddOne w.tapCounter) w = (.ok res, w0) →
      res.bundleId = some b → getProvider env = .ok p →
      waitForCallBundleFinal p b {} w0 = some (.ok status, w2) →
      ∃ o w1, tapIteration env (arrivals.headD 0) w = some (o, w1) ∧
        (o = .confirmedSuccess ∨ o = .unsupported)) := by
  obtain ⟨hA, hB, hC, hD, hE⟩ := tapIteration_cases env (arrivals.headD 0) w
  obtain ⟨hG1, hG2, hG3, _⟩ := walletSendCallsTap_errors env (jsAddOne w.tapCounter) w
  refine ⟨?_, ?_, ?_, ?_, ?_, ?_, ?_, ?_, ?_⟩
  · obtain ⟨o, w1, hit, hq1, _, hc, hp⟩ := tapIteration_effect env (arrivals.headD 0) w
    obtain ⟨os, w2, hd, hd1, hl⟩ := drainLoop_continues env fuel arrivals w w1 o hq hf hit
    refine ⟨o, w1, os, w2, hit, by omega, ?_, ?_, hd, hd1, hl⟩
    · rintro ⟨e, he⟩
      subst he
      simpa [AttemptOutcome.credited] using And.intro hc hp
    · intro hne
      have hcr : o.credited = true := by
        cases o with
        | raised e => exact absurd rfl (hne e)
        | confirmedSuccess => rfl
        | unsupported => rfl
        | noBundleId => rfl
      simp only [hcr, if_true] at hc hp
      refine ⟨hc, hp, ?_, ?_⟩
      · intro hlt
        rw [hc]
        exact jsAddOne_of_lt _ hlt
      · intro hlt
        rw [hp]
        exact jsAddOne_of_lt _ hlt
  · intro e h
    exact ⟨_, hA e _ (hG1 e h)⟩
  · intro p e h h1
    exact ⟨_, hA e _ (hG2 p e h h1)⟩
  · intro p a e h h1 h2
    exact ⟨_, hA e _ (hG3 p a e h h1 h2)⟩
  · intro e w0 h
    exact ⟨_, hA e w0 h⟩
  · intro res w0 b e h hb hp
    exact ⟨_, hC res w0 b e h hb hp⟩
  · intro res w0 b p e w2 h hb hp hw
    exact ⟨waitLoop_error_is_timeout p b {} w0.now _ w0 w2 e hw, _, hD res w0 b p e w2 h hb hp hw⟩
  · intro res w0 h hb
    exact ⟨_, hB res w0 h hb⟩
  · intro res w0 b p status w2 h hb hp hw
    refine ⟨_, _, hE res w0 b p status w2 h hb hp hw, ?_⟩
    cases inSuccessRange status.statusCode <;> simp

/-- C12, instance: two taps are queued and the wallet yields no account, so
`ensureConnected` fails with "No account selected": the first pass has
outcome `raised "No account selected"`, leaves the counter and `pata` at 0
and the queue at 1, and the drain goes on with the second tap. -/
theorem tapIteration_failure_keeps_counter_and_reward_witness :
    ∃ w1 os w2, tapIteration (plainEnv nullCapsWallet) 0 twoTapsQueued
        = some (.raised "No account selected", w1) ∧
      w1.tapQueue + 1 = 2 ∧ w1.tapCounter = 0 ∧ w1.pata = 0 ∧
      drainLoop (plainEnv nullCapsWallet) 3 [] twoTapsQueued
        = some (.raised "No account selected" :: os, w2) ∧
      w1.tapQueue ≤ os.length := by
  obtain ⟨⟨o, w1, os, w2, hit, hq, hraised, _, hd, _, hl⟩, _, hconn, _⟩ :=
    tapIteration_failure_keeps_counter_and_reward (plainEnv nullCapsWallet) 2 [] twoTapsQueued
      (by decide) (by decide)
  obtain ⟨w1', hit'⟩ := hconn nullCapsWallet "No account selected" rfl rfl
  rw [hit] at hit'
  simp only [Option.some.injEq, Prod.mk.injEq] at hit'
  obtain ⟨ho, _⟩ := hit'
  subst ho
  obtain ⟨hc, hp⟩ := hraised ⟨_, rfl⟩
  exact ⟨w1, os, w2, hit, hq, hc, hp, hd, hl⟩

/-- The run behind the instance of C12, evaluated: both attempts throw, the
counter and `pata` stay at 0, and the queue is drained. -/
theorem twoTapsQueued_no_account_drain :
    drainSummary (processTapQueue (plainEnv nullCapsWallet) [] twoTapsQueued)
      = some ([.raised "No account selected", .raised "No account selected"], 0, 0, 0, false) ∧
    passSummary (tapIteration (plainEnv nullCapsWallet) 0 twoTapsQueued)
      = some (.raised "No account selected", 0, 0) := by
  refine ⟨by decide, by decide⟩

/-! ### USDC amounts -/

/-- A decimal digit is not the full stop. -/
theorem isDecimalDigit_ne_dot (c : Char) (h : isDecimalDigit c = true) : c ≠ '.' := by
  intro hc
  subst hc
  revert h
  decide

/-- The digit prefix of digits followed by nothing or by a non-digit. -/
theorem takeWhile_digits_append (l r : List Char) (hl : l.all isDecimalDigit = true)
    (hr : ∀ c ∈ r.head?, isDecimalDigit c = false) :
    (l ++ r).takeWhile isDecimalDigit = l ∧ (l ++ r).dropWhile isDecimalDigit = r := by
  induction l with
  | nil =>
    cases r with
    | nil => simp
    | cons c cs =>
      have := hr c (by simp)
      simp [List.takeWhile, List.dropWhile, this]
  | cons a l ih =>
    simp only [List.all_cons, Bool.and_eq_true] at hl
    obtain ⟨ha, hl⟩ := hl
    obtain ⟨h1, h2⟩ := ih hl
    simp [List.takeWhile, List.dropWhile, ha, h1, h2]

/-- A list is its digit prefix followed by the rest. -/
theorem takeWhile_all_digits (s : List Char) :
    (s.takeWhile isDecimalDigit).all isDecimalDigit = true := by
  induction s with
  | nil => rfl
  | cons a l ih =>
    by_cases ha : isDecimalDigit a = true
    · simp [List.takeWhile, ha, ih]
    · simp [List.takeWhile, ha]

/-- The regular expression accepts exactly the texts of well-formed numerals. -/
theorem matchesAmount_iff (s : List Char) :
    matchesAmount s = true ↔ ∃ n : Numeral, n.wellFormed = true ∧ s = n.text := by
  constructor
  · intro h
    have hsplit : s.takeWhile isDecimalDigit ++ s.dropWhile isDecimalDigit = s :=
      List.takeWhile_append_dropWhile _ _
    have hall := takeWhile_all_digits s
    unfold matchesAmount at h
    simp only [] at h
    split at h
    · rename_i hd
      refine ⟨⟨s.takeWhile isDecimalDigit, none⟩, ?_, ?_⟩
      · simp [Numeral.wellFormed, hall]
        simpa using h
      · rw [hd, List.append_nil] at hsplit
        simp [Numeral.text, hsplit]
    · rename_i c frac hd
      simp only [Bool.and_eq_true, beq_iff_eq] at h
      obtain ⟨⟨⟨h1, h2⟩, h3⟩, h4⟩ := h
      subst h2
      refine ⟨⟨s.takeWhile isDecimalDigit, some frac⟩, ?_, ?_⟩
      · simp only [Numeral.wellFormed, hall, h1, h3, h4, Bool.and_self]
      · rw [hd] at hsplit
        simp [Numeral.text, hsplit]
  · rintro ⟨n, hwf, rfl⟩
    obtain ⟨whole, frac⟩ := n
    cases frac with
    | none =>
      simp only [Numeral.wellFormed, Bool.and_true, Bool.and_eq_true] at hwf
      obtain ⟨hne, hall⟩ := hwf
      obtain ⟨h1, h2⟩ := takeWhile_digits_append whole [] hall (by simp)
      simp only [List.append_nil] at h1 h2
      simp [matchesAmount, Numeral.text, h1, h2, hne]
    | some f =>
      simp only [Numeral.wellFormed, Bool.and_eq_true] at hwf
      obtain ⟨⟨hne, hall⟩, hfne, hfall⟩ := hwf
      obtain ⟨h1, h2⟩ := takeWhile_digits_append whole ('.' :: f) hall (by simp; decide)
      simp [matchesAmount, Numeral.text, h1, h2, hne, hfne, hfall]


/-- Splitting a text without full stop gives the text alone. -/
theorem splitDot_digits (l : List Char) (hl : l.all isDecimalDigit = true) :
    splitDot l = [l] := by
  induction l with
  | nil => rfl
  | cons a l ih =>
    simp only [List.all_cons, Bool.and_eq_true] at hl
    obtain ⟨ha, hl⟩ := hl
    simp [splitDot, isDecimalDigit_ne_dot a ha, ih hl]

/-- Splitting `digits.rest` gives the digits, then the pieces of the rest. -/
theorem splitDot_digits_dot (l r : List Char) (hl : l.all isDecimalDigit = true) :
    splitDot (l ++ '.' :: r) = l :: splitDot r := by
  induction l with
  | nil => simp [splitDot]
  | cons a l ih =>
    simp only [List.all_cons, Bool.and_eq_true] at hl
    obtain ⟨ha, hl⟩ := hl
    simp [splitDot, isDecimalDigit_ne_dot a ha, ih hl]

/-- The value of a digit sequence followed by another. -/
theorem decimalValue_append (a b : List Char) :
    decimalValue (a ++ b) = decimalValue a * 10 ^ b.length + decimalValue b := by
  unfold decimalValue
  rw [List.reverse_append, List.map_append, Nat.ofDigits_append]
  simp only [List.length_map, List.length_reverse]
  ring

/-- The value of a single digit. -/
theorem decimalValue_singleton (c : Char) : decimalValue [c] = digitValue c := by
  simp [decimalValue, Nat.ofDigits]

/-- The left fold of `BigInt` computes the decimal value. -/
theorem foldl_digits (s : List Char) : ∀ acc : Nat,
    s.foldl (fun acc c => acc * 10 + digitValue c) acc
      = acc * 10 ^ s.length + decimalValue s := by
  induction s with
  | nil => intro acc; simp [decimalValue]
  | cons c cs ih =>
    intro acc
    have h := decimalValue_append [c] cs
    rw [decimalValue_singleton] at h
    simp only [List.singleton_append] at h
    rw [List.foldl_cons, ih, h, List.length_cons, pow_succ]
    ring

/-- `BigInt` of a digit sequence is its decimal value. -/
theorem BigInt_digits (s : List Char) (h : s.all isDecimalDigit = true) :
    BigInt s = .ok (decimalValue s) := by
  simp [BigInt, h, foldl_digits]

/-- A decimal digit stands for a number below ten. -/
theorem digitValue_lt (c : Char) (h : isDecimalDigit c = true) : digitValue c < 10 := by
  simp only [isDecimalDigit, Bool.and_eq_true, decide_eq_true_eq] at h
  obtain ⟨_, h2⟩ := h
  have h3 : c.toNat ≤ '9'.toNat := h2
  have h4 : '9'.toNat = 57 := by decide
  unfold digitValue
  omega

/-- A sequence of `k` digits denotes a number below `10 ^ k`. -/
theorem decimalValue_lt (s : List Char) (h : s.all isDecimalDigit = true) :
    decimalValue s < 10 ^ s.length := by
  induction s using List.reverseRecOn with
  | nil => simp [decimalValue]
  | append_singleton l a ih =>
    simp only [List.all_append, List.all_cons, List.all_nil, Bool.and_true,
      Bool.and_eq_true] at h
    obtain ⟨hl, ha⟩ := h
    have h1 := ih hl
    have h2 := digitValue_lt a ha
    rw [decimalValue_append, decimalValue_singleton]
    simp only [List.length_append, List.length_singleton, pow_succ, pow_zero, mul_one]
    nlinarith

/-- Zeros denote zero. -/
theorem decimalValue_zeros (k : Nat) : decimalValue (List.replicate k '0') = 0 := by
  induction k with
  | zero => simp [decimalValue]
  | succ k ih =>
    rw [List.replicate_succ]
    have h := decimalValue_append ['0'] (List.replicate k '0')
    simp only [List.singleton_append] at h
    rw [h, ih, decimalValue_singleton]
    simp [digitValue]


/-- The six digits the code keeps of a fraction denote the floor of a million
times the fraction. -/
theorem decimalValue_padded (f : List Char) (hf : f.all isDecimalDigit = true) :
    decimalValue ((f ++ List.replicate 6 '0').take 6)
      = decimalValue f * 10 ^ 6 / 10 ^ f.length := by
  by_cases hk : f.length ≤ 6
  · have ht : (f ++ List.replicate 6 '0').take 6 = f ++ List.replicate (6 - f.length) '0' := by
      rw [List.take_append_eq_append_take, List.take_of_length_le hk, List.take_replicate]
      congr 2
      omega
    rw [ht, decimalValue_append, decimalValue_zeros, List.length_replicate, Nat.add_zero]
    have hp : (10 : Nat) ^ 6 = 10 ^ (6 - f.length) * 10 ^ f.length := by
      rw [← pow_add]
      congr 1
      omega
    rw [hp, ← Nat.mul_assoc, Nat.mul_div_cancel _ (by positivity)]
  · have hk' : 6 < f.length := by omega
    have ht : (f ++ List.replicate 6 '0').take 6 = f.take 6 := by
      rw [List.take_append_eq_append_take]
      have : 6 - f.length = 0 := by omega
      simp [this]
    have hsplit : f = f.take 6 ++ f.drop 6 := (List.take_append_drop 6 f).symm
    have hdrop : (f.drop 6).all isDecimalDigit = true := by
      rw [List.all_eq_true] at hf ⊢
      intro c hc
      exact hf c (List.mem_of_mem_drop hc)
    have hlt := decimalValue_lt (f.drop 6) hdrop
    have hval : decimalValue f
        = decimalValue (f.take 6) * 10 ^ (f.drop 6).length + decimalValue (f.drop 6) := by
      conv_lhs => rw [hsplit]
      exact decimalValue_append _ _
    have hlen : (f.drop 6).length = f.length - 6 := List.length_drop 6 f
    rw [hlen] at hval hlt
    have hp : (10 : Nat) ^ f.length = 10 ^ 6 * 10 ^ (f.length - 6) := by
      rw [← pow_add]
      congr 1
      omega
    rw [ht, hp, Nat.mul_comm (decimalValue f), Nat.mul_div_mul_left _ _ (by positivity), hval]
    rw [Nat.add_comm, Nat.add_mul_div_right _ _ (by positivity), Nat.div_eq_of_lt hlt,
      Nat.zero_add]

/-- The floor of a million times `W + F / 10 ^ k`. -/
theorem floor_units (W F k : Nat) :
    Nat.floor (((W : ℚ) + (F : ℚ) / (10 : ℚ) ^ k) * (10 : ℚ) ^ 6)
      = W * 10 ^ 6 + F * 10 ^ 6 / 10 ^ k := by
  have hk : ((10 : ℚ) ^ k) ≠ 0 := by positivity
  have h : ((W : ℚ) + (F : ℚ) / (10 : ℚ) ^ k) * (10 : ℚ) ^ 6
      = (((W * 10 ^ 6 * 10 ^ k + F * 10 ^ 6 : ℕ) : ℚ)) / ((10 ^ k : ℕ) : ℚ) := by
    push_cast
    field_simp
    ring
  rw [h, Nat.floor_div_eq_div]
  rw [Nat.add_comm, Nat.add_mul_div_right _ _ (by positivity), Nat.add_comm]

/-- The floor of a million times a natural number. -/
theorem floor_units_whole (W : Nat) :
    Nat.floor ((W : ℚ) * (10 : ℚ) ^ 6) = W * 10 ^ 6 := by
  have h : (W : ℚ) * (10 : ℚ) ^ 6 = ((W * 10 ^ 6 : ℕ) : ℚ) := by push_cast; ring
  rw [h, Nat.floor_natCast]


/-- On the text of a well-formed numeral the code returns the floor of a
million times its value, unless that is zero. -/
theorem parse_numeral (input : String) (n : Numeral) (hwf : n.wellFormed = true)
    (ht : trimChars input.data = n.text) :
    parseUsdcToBaseUnits input
      = if n.baseUnits = 0 then .error "Amount must be > 0" else .ok n.baseUnits := by
  have hm : matchesAmount n.text = true := (matchesAmount_iff _).2 ⟨n, hwf, rfl⟩
  obtain ⟨whole, frac⟩ := n
  cases frac with
  | none =>
    simp only [Numeral.wellFormed, Bool.and_true, Bool.and_eq_true] at hwf
    obtain ⟨hne, hall⟩ := hwf
    have hne' : whole.isEmpty = false := by simpa using hne
    have hu : Numeral.baseUnits ⟨whole, none⟩ = decimalValue whole * 10 ^ 6 := by
      simp only [Numeral.baseUnits, Numeral.value]
      exact floor_units_whole _
    have hz : BigInt ['0', '0', '0', '0', '0', '0'] = .ok 0 := by decide
    simp only [Numeral.text] at ht hm
    unfold parseUsdcToBaseUnits
    simp only [ht, hne', hm, splitDot_digits whole hall, USDC_DECIMALS]
    simp [BigInt_digits whole hall, hz, hu]
  | some f =>
    simp only [Numeral.wellFormed, Bool.and_eq_true] at hwf
    obtain ⟨⟨hne, hall⟩, hfne, hfall⟩ := hwf
    have hne' : (whole ++ '.' :: f).isEmpty = false := by
      cases whole <;> simp
    have hu : Numeral.baseUnits ⟨whole, some f⟩
        = decimalValue whole * 10 ^ 6 + decimalValue f * 10 ^ 6 / 10 ^ f.length := by
      simp only [Numeral.baseUnits, Numeral.value]
      exact floor_units _ _ _
    have hpad := decimalValue_padded f hfall
    have hpadall : ((f ++ List.replicate 6 '0').take 6).all isDecimalDigit = true := by
      rw [List.all_eq_true]
      intro c hc
      rcases List.mem_append.1 (List.mem_of_mem_take hc) with h | h
      · exact (List.all_eq_true.1 hfall) c h
      · rw [List.eq_of_mem_replicate h]
        decide
    have hpadne : ((f ++ List.replicate 6 '0').take 6).isEmpty = false := by
      cases f with
      | nil => simp at hfne
      | cons a l => simp
    have hrep : List.replicate 6 '0' = ['0', '0', '0', '0', '0', '0'] := rfl
    rw [hrep] at hpad hpadall hpadne
    have hbig := BigInt_digits _ hpadall
    rw [hpad] at hbig
    simp only [Numeral.text] at ht hm
    unfold parseUsdcToBaseUnits
    simp only [ht, hne', hm, splitDot_digits_dot whole f hall, splitDot_digits f hfall,
      USDC_DECIMALS]
    simp [BigInt_digits whole hall, hpadne, hbig, hu]


/-- Sample amounts, evaluated: whole numbers, padding, truncation of the
seventh fraction digit, leading zeros, white space, and the three errors. -/
theorem parseUsdcToBaseUnits_samples :
    parseUsdcToBaseUnits "1" = .ok 1000000 ∧
    parseUsdcToBaseUnits "  0.5 " = .ok 500000 ∧
    parseUsdcToBaseUnits "1.2345678" = .ok 1234567 ∧
    parseUsdcToBaseUnits "007.10" = .ok 7100000 ∧
    parseUsdcToBaseUnits "0.0000009" = .error "Amount must be > 0" ∧
    parseUsdcToBaseUnits ".5" = .error "Invalid amount" ∧
    parseUsdcToBaseUnits "1." = .error "Invalid amount" ∧
    parseUsdcToBaseUnits "1e3" = .error "Invalid amount" ∧
    parseUsdcToBaseUnits "-1" = .error "Invalid amount" ∧
    parseUsdcToBaseUnits "   " = .error "Enter an amount" := by
  decide

/-- C13: `parseUsdcToBaseUnits` returns an amount only when the trimmed input
is a numeral `digits` or `digits.digits`, and the amount is then positive
and equal to the floor of a million times the value of the numeral; on
every such numeral it returns that floor, or throws "Amount must be > 0"
when the floor is zero; it throws "Enter an amount" when the trimmed input
is empty and "Invalid amount" when it is non-empty and not such a numeral. -/
theorem parseUsdcToBaseUnits_floor_of_numeral (input : String) :
    (∀ u, parseUsdcToBaseUnits input = .ok u →
      0 < u ∧ ∃ n : Numeral, n.wellFormed = true ∧ trimChars input.data = n.text ∧
        u = Nat.floor (n.value * (10 : ℚ) ^ 6)) ∧
    (∀ n : Numeral, n.wellFormed = true → trimChars input.data = n.text →
      parseUsdcToBaseUnits input
        = if Nat.floor (n.value * (10 : ℚ) ^ 6) = 0 then .error "Amount must be > 0"
          else .ok (Nat.floor (n.value * (10 : ℚ) ^ 6))) ∧
    (trimChars input.data = [] → parseUsdcToBaseUnits input = .error "Enter an amount") ∧
    (trimChars input.data ≠ [] →
      (∀ n : Numeral, n.wellFormed = true → trimChars input.data ≠ n.text) →
      parseUsdcToBaseUnits input = .error "Invalid amount") := by
  refine ⟨?_, ?_, ?_, ?_⟩
  · intro u hu
    by_cases he : trimChars input.data = []
    · simp [parseUsdcToBaseUnits, he] at hu
    · by_cases hm : matchesAmount (trimChars input.data) = true
      · obtain ⟨n, hwf, ht⟩ := (matchesAmount_iff _).1 hm
        have hp := parse_numeral input n hwf ht
        rw [hu] at hp
        unfold Numeral.baseUnits at hp
        split at hp
        · simp at hp
        · rename_i hne
          simp only [Except.ok.injEq] at hp
          exact ⟨by omega, n, hwf, ht, hp⟩
      · have hne : (trimChars input.data).isEmpty = false := by
          cases h : trimChars input.data with
          | nil => exact absurd h he
          | cons a l => rfl
        simp [parseUsdcToBaseUnits, hne, hm] at hu
  · intro n hwf ht
    exact parse_numeral input n hwf ht
  · intro he
    simp [parseUsdcToBaseUnits, he]
  · intro he hno
    have hm : matchesAmount (trimChars input.data) = false := by
      cases h : matchesAmount (trimChars input.data) with
      | false => rfl
      | true =>
        obtain ⟨n, hwf, ht⟩ := (matchesAmount_iff _).1 h
        exact absurd ht (hno n hwf)
    have hne : (trimChars input.data).isEmpty = false := by
      cases h : trimChars input.data with
      | nil => exact absurd h he
      | cons a l => rfl
    simp [parseUsdcToBaseUnits, hne, hm]

/-- C13, instance: on "1.2345678", the numeral with whole part 1 and fraction
2345678, the result is the floor of a million times its value. -/
theorem parseUsdcToBaseUnits_floor_of_numeral_witness :
    parseUsdcToBaseUnits "1.2345678"
      = if Nat.floor ((Numeral.mk ['1'] (some ['2', '3', '4', '5', '6', '7', '8'])).value
            * (10 : ℚ) ^ 6) = 0 then .error "Amount must be > 0"
        else .ok (Nat.floor ((Numeral.mk ['1'] (some ['2', '3', '4', '5', '6', '7', '8'])).value
            * (10 : ℚ) ^ 6)) :=
  (parseUsdcToBaseUnits_floor_of_numeral "1.2345678").2.1
    (Numeral.mk ['1'] (some ['2', '3', '4', '5', '6', '7', '8'])) (by decide) (by decide)

end Tapgorila
